import Mathlib

/-!
Verification development for the `uttori/audio-midi` Standard MIDI File codec.

The JavaScript source (`src/index.js`, class `AudioMIDI extends DataBuffer`) is
shallowly embedded below.  JavaScript numbers are modelled as `Nat`/`Int` with
explicit 32-bit wrapping where the source uses bitwise operators (which operate
on `ToInt32` of their arguments); `undefined` fields become `Option`; thrown
errors become `Option`/`Except`.
-/

deriving instance DecidableEq for Except

namespace AudioMIDI

/-- JavaScript `ToInt32`: wrap an integer into the signed 32-bit range.
Bitwise operators (`<<`, `>>`, `&`, `|`) apply this conversion first. -/
def toInt32 (x : Int) : Int := (x + 2 ^ 31) % 2 ^ 32 - 2 ^ 31

/-- JavaScript `value >> 7` on an integer: `ToInt32` then arithmetic shift,
which is flooring division by 128. -/
def jsShr7 (v : Int) : Int := Int.fdiv (toInt32 v) 128

theorem toInt32_of_small (x : Int) (h0 : 0 ≤ x) (h1 : x < 2 ^ 31) : toInt32 x = x := by
  unfold toInt32
  rw [Int.emod_eq_of_lt (by omega) (by omega)]
  omega

/-!
## ByteCursor

The byte buffer collaborator (`DataBuffer`/`DataStream` from
`@uttori/data-tools`) is not part of this repository's sources.
Modelled from the spec: §4.1 "ByteCursor" — an absolute cursor over a byte
vector; big-endian numeric reads; bounded reads raise `Underflow` (modelled as
`none`).
-/

structure Cursor where
  bytes : List Nat
  pos : Nat
deriving DecidableEq

def Cursor.remainingBytes (c : Cursor) : Nat := c.bytes.length - c.pos

/-- `readUInt8`: the stored vector is byte-valued (`Uint8Array`), modelled by
reducing each element mod 256. -/
def Cursor.readUInt8 (c : Cursor) : Option (Nat × Cursor) :=
  match c.bytes[c.pos]? with
  | some b => some (b % 256, ⟨c.bytes, c.pos + 1⟩)
  | none => none

/-- `readString(n)`: `n` bytes decoded as a (latin-1 / ASCII) string. -/
def Cursor.readString (c : Cursor) (n : Nat) : Option (String × Cursor) :=
  if c.pos + n ≤ c.bytes.length then
    some (String.mk (((c.bytes.drop c.pos).take n).map (fun b => Char.ofNat (b % 256))),
      ⟨c.bytes, c.pos + n⟩)
  else none

/-- `readString` with a VLQ-decoded (`Int`) length, as the meta text cases
pass it; a negative length underflows. -/
def Cursor.readStringI (c : Cursor) (n : Int) : Option (String × Cursor) :=
  if 0 ≤ n then c.readString n.toNat else none

/-- `read(n)`: a raw byte slice of length `n` (the source passes VLQ-decoded
lengths here, which are `Int`s; a negative requested length underflows). -/
def Cursor.read (c : Cursor) (n : Int) : Option (List Nat × Cursor) :=
  if 0 ≤ n ∧ c.pos + n.toNat ≤ c.bytes.length then
    some ((c.bytes.drop c.pos).take n.toNat, ⟨c.bytes, c.pos + n.toNat⟩)
  else none

def Cursor.readUInt16 (c : Cursor) : Option (Nat × Cursor) :=
  match c.readUInt8 with
  | some (b0, c0) =>
    match c0.readUInt8 with
    | some (b1, c1) => some (b0 * 256 + b1, c1)
    | none => none
  | none => none

def Cursor.readUInt32 (c : Cursor) : Option (Nat × Cursor) :=
  match c.readUInt16 with
  | some (w0, c0) =>
    match c0.readUInt16 with
    | some (w1, c1) => some (w0 * 65536 + w1, c1)
    | none => none
  | none => none

def Cursor.rewind (c : Cursor) (n : Nat) : Cursor := ⟨c.bytes, c.pos - n⟩

def Cursor.advance (c : Cursor) (n : Nat) : Cursor := ⟨c.bytes, c.pos + n⟩

theorem Cursor.readUInt8_pos_lt (c : Cursor) (b : Nat) (c1 : Cursor)
    (h : c.readUInt8 = some (b, c1)) : c.pos < c.bytes.length ∧ c1 = ⟨c.bytes, c.pos + 1⟩ := by
  unfold Cursor.readUInt8 at h
  cases hg : c.bytes[c.pos]? with
  | none => rw [hg] at h; exact absurd h (by simp)
  | some v =>
    rw [hg] at h
    have hlt : c.pos < c.bytes.length := by
      by_contra hge
      rw [List.getElem?_eq_none (by omega)] at hg
      exact absurd hg (by simp)
    exact ⟨hlt, by simp at h; exact h.2.symm⟩

/-!
## VLQ codec

`readVariableLengthValues` (instance method) and `writeVariableLengthValue`
(static), embedded from the source.
-/

/-- The accumulation loop of `readVariableLengthValues`:
`value = (value << 7) + (byte & 0x7F)`, repeated
`while (byte & 0x80 && this.remainingBytes() > 0)`.  Fuel-indexed for
computability; each iteration consumes one byte and the loop only continues
while bytes remain, so `remainingBytes + 1` fuel is always enough. -/
def readVLVaux (fuel : Nat) (c : Cursor) (value : Int) : Option (Int × Cursor) :=
  match fuel with
  | 0 => none
  | fuel + 1 =>
    match c.readUInt8 with
    | none => none
    | some (byte, c1) =>
      let v := toInt32 (value * 128) + (byte % 128 : Nat)
      if 128 ≤ byte ∧ 0 < c1.remainingBytes then readVLVaux fuel c1 v else some (v, c1)

def readVariableLengthValues (c : Cursor) : Option (Int × Cursor) :=
  readVLVaux (c.remainingBytes + 1) c 0

/-- The group-collecting `do { buffer.push(value & 0x7F); value >>= 7 } while (value > 0)`
loop of `writeVariableLengthValue`, least-significant group first.
The argument is already `ToInt32`-converted (as `&`/`>>` do); the value
shrinks by a factor 128 each round, so `v.toNat + 1` fuel is always enough. -/
def vlvGroupsAux (fuel : Nat) (v : Int) : List Int :=
  match fuel with
  | 0 => []
  | fuel + 1 =>
    v % 128 :: (if 0 < Int.fdiv v 128 then vlvGroupsAux fuel (Int.fdiv v 128) else [])

def vlvGroups (v : Int) : List Int := vlvGroupsAux (v.toNat + 1) v

/-- The emission loop: `while (buffer.length > 1) writeUInt8(buffer.pop() | 0x80);
writeUInt8(buffer.pop())`.  Input is the buffer reversed (most-significant
group first, the order `pop` yields). -/
def emitVLV : List Int → List Nat
  | [] => []
  | [g] => [g.toNat]
  | g :: rest => (g.toNat ||| 128) :: emitVLV rest

/-- `AudioMIDI.writeVariableLengthValue` as the list of bytes it appends to the
data buffer (`Math.round` is the identity on the integer values considered). -/
def writeVariableLengthValue (value : Int) : List Nat :=
  emitVLV (vlvGroups (toInt32 value)).reverse

/-!
## Data model

`MidiTrackEvent` objects are open JavaScript records; the shapes actually
constructed by the codec are enumerated as `EData`.  An absent (`undefined`)
field is `none` / `EData.undef`.
-/

/-- `Math.round` on a rational (round half away from zero is `floor (q + 1/2)`
for the nonnegative values that occur here, matching JavaScript). -/
def jsRound (q : ℚ) : Int := Int.floor (q + 1 / 2)

inductive EData where
  | undef
  | str (s : String)
  | num (n : Nat)
  | bytes (bs : List Nat)
  | sysEx (manufacturerId : Nat) (manufacturerLabel : String) (data : List Nat)
  | songPosition (msb lsb : Nat)
  | seqNumber (sequenceNumber : Nat) (seqType : String)
  | mLiveTag (tag : Nat) (tagLabel : String) (tagValue : List Nat)
  | setTempo (byte1 byte2 byte3 : Nat) (tempo : Nat) (bpm : Option Int)
  | smpteOffset (hourByte hour minute second frame subFrame : Nat) (frameRate : ℚ)
  | timeSignature (numerator denominator metronome thirtySecondNotes : Nat)
  | keySignature (keySignature majorOrMinor : Nat) (keyName mode : String)
  | noteOff (note : String) (velocity : Nat) (length : Int)
  | noteOn (note : Nat) (velocity : Nat) (length : Option Int)
  | noteAftertouch (note velocity : Nat)
  | controllerData (controller value : Nat) (label : String)
  | pitchBend (pitchValue firstByte secondByte : Nat)
  | ccWrite (controllerNumber value : Nat)
deriving DecidableEq

structure MEvent where
  deltaTime : Int
  type : Option Nat := none
  label : Option String := none
  data : EData := .undef
  metaType : Option Nat := none
  metaEventLength : Option Int := none
  channel : Option Nat := none
deriving DecidableEq

structure MTrack where
  type : String
  chunkLength : Nat
  events : List MEvent
deriving DecidableEq

structure Header where
  type : String
  chunkLength : Nat
  format : Nat
  trackCount : Nat
  framesPerSecond : Option Nat := none
  ticksPerFrame : Option Nat := none
  timeDivision : Option Nat := none
deriving DecidableEq

/-- `AudioMIDI.decodeHeader`, reading the 14-byte chunk `parse` hands it. -/
def decodeHeader (chunk : List Nat) : Option Header := do
  let c : Cursor := ⟨chunk, 0⟩
  let (type, c) ← c.readString 4
  let (chunkLength, c) ← c.readUInt32
  let (format, c) ← c.readUInt16
  let (trackCount, c) ← c.readUInt16
  let (timeDivisionByte1, c) ← c.readUInt8
  let (timeDivisionByte2, _) ← c.readUInt8
  if timeDivisionByte1 ≥ 128 then
    pure { type, chunkLength, format, trackCount,
           framesPerSecond := some (timeDivisionByte1 - 128),
           ticksPerFrame := some timeDivisionByte2 }
  else
    pure { type, chunkLength, format, trackCount,
           timeDivision := some (timeDivisionByte1 * 256 + timeDivisionByte2) }

/-- Uppercase hexadecimal rendering, as `n.toString(16).toUpperCase()`. -/
def natToHexUpper (n : Nat) : String := String.mk ((Nat.toDigits 16 n).map Char.toUpper)

/-- `AudioMIDI.getControllerLabel`. -/
def getControllerLabel (controller : Nat) : String :=
  match controller with
  | 0x00 => "Bank Select (MSB)"
  | 0x01 => "Modulation Wheel (MSB)"
  | 0x02 => "Breath Controller (MSB)"
  | 0x04 => "Foot Controller (MSB)"
  | 0x05 => "Portamento Time (MSB)"
  | 0x06 => "Data Entry (MSB)"
  | 0x07 => "Volume (MSB)"
  | 0x08 => "Balance (MSB)"
  | 0x0A => "Pan (MSB)"
  | 0x0B => "Expression Controller (MSB)"
  | 0x0C => "Effect Control 1 (MSB)"
  | 0x0D => "Effect Control 2 (MSB)"
  | 0x10 => "General Purpose Controller 1 (MSB)"
  | 0x11 => "General Purpose Controller 2 (MSB)"
  | 0x12 => "General Purpose Controller 3 (MSB)"
  | 0x13 => "General Purpose Controller 4 (MSB)"
  | 0x20 => "Bank Select (LSB)"
  | 0x21 => "Modulation Wheel (LSB)"
  | 0x22 => "Breath Controller (LSB)"
  | 0x24 => "Foot Controller (LSB)"
  | 0x25 => "Portamento Time (LSB)"
  | 0x26 => "Data Entry (LSB)"
  | 0x27 => "Volume (LSB)"
  | 0x28 => "Balance (LSB)"
  | 0x2A => "Pan (LSB)"
  | 0x2B => "Expression Controller (LSB)"
  | 0x2C => "Effect Control 1 (LSB)"
  | 0x2D => "Effect Control 2 (LSB)"
  | 0x30 => "General Purpose Controller 1 (LSB)"
  | 0x31 => "General Purpose Controller 2 (LSB)"
  | 0x32 => "General Purpose #3 LSB"
  | 0x33 => "General Purpose #4 LSB"
  | 0x40 => "Hold Pedal #1"
  | 0x41 => "Portamento (GS)"
  | 0x42 => "Sostenuto (GS)"
  | 0x43 => "Soft Pedal (GS)"
  | 0x44 => "Legato Pedal"
  | 0x45 => "Hold Pedal #2"
  | 0x46 => "Sound Variation"
  | 0x47 => "Sound Timbre"
  | 0x48 => "Sound Release Time"
  | 0x49 => "Sound Attack Time"
  | 0x4A => "Sound Brightness"
  | 0x4B => "Sound Control #6"
  | 0x4C => "Sound Control #7"
  | 0x4D => "Sound Control #8"
  | 0x4E => "Sound Control #9"
  | 0x4F => "Sound Control #10"
  | 0x50 => "GP Control #5"
  | 0x51 => "GP Control #6"
  | 0x52 => "GP Control #7"
  | 0x53 => "GP Control #8"
  | 0x54 => "Portamento Control (GS)"
  | 0x5B => "Reverb Level (GS)"
  | 0x5C => "Tremolo Depth"
  | 0x5D => "Chorus Level (GS)"
  | 0x5E => "Celeste Depth"
  | 0x5F => "Phaser Depth"
  | 0x60 => "Data Increment"
  | 0x61 => "Data Decrement"
  | 0x62 => "NRPN Parameter LSB (GS)"
  | 0x63 => "NRPN Parameter MSB (GS)"
  | 0x64 => "RPN Parameter LSB"
  | 0x65 => "RPN Parameter MSB"
  | 0x78 => "All Sound Off (GS)"
  | 0x79 => "Reset All Controllers"
  | 0x7A => "Local On/Off"
  | 0x7B => "All Notes Off"
  | 0x7C => "Omni Mode Off"
  | 0x7D => "Omni Mode On"
  | 0x7E => "Mono Mode On"
  | 0x7F => "Poly Mode On"
  | _ => "Unknown Controller: " ++ toString controller

/-- `AudioMIDI.getManufacturerLabel`. -/
def getManufacturerLabel (manufacturerId : Nat) : String :=
  match manufacturerId with
  | 0x01 => "Sequential Circuits"
  | 0x02 => "Big Briar"
  | 0x03 => "Octave/Plateau"
  | 0x04 => "Moog"
  | 0x05 => "Passport Designs"
  | 0x06 => "Lexicon"
  | 0x07 => "Kurzweil"
  | 0x08 => "Fender"
  | 0x09 => "Gulbransen"
  | 0x0A => "Delta Labs"
  | 0x0B => "Sound Comp"
  | 0x0C => "General Electro"
  | 0x0D => "Matthews Research"
  | 0x0E => "Effect control 2"
  | 0x10 => "Oberheim"
  | 0x11 => "PAIA"
  | 0x12 => "Simmons"
  | 0x13 => "DigiDesign"
  | 0x14 => "Fairlight"
  | 0x15 => "JL Cooper"
  | 0x16 => "Lowery"
  | 0x17 => "Lin"
  | 0x18 => "Emu"
  | 0x1B => "Peavey"
  | 0x20 => "BonTempi"
  | 0x21 => "S.I.E.L."
  | 0x23 => "SyntheAxe"
  | 0x24 => "Hohner"
  | 0x25 => "Crumar"
  | 0x26 => "Solton"
  | 0x27 => "Jellinghaus Ms"
  | 0x28 => "CTS"
  | 0x29 => "PPG"
  | 0x2F => "Elka"
  | 0x36 => "Cheetah"
  | 0x3E => "Waldorf"
  | 0x40 => "Kawai"
  | 0x41 => "Roland"
  | 0x42 => "Korg"
  | 0x43 => "Yamaha"
  | 0x44 => "Casio"
  | 0x46 => "Kamiya Studio"
  | 0x47 => "Akai"
  | 0x48 => "Victor"
  | 0x4B => "Fujitsu"
  | 0x4C => "Sony"
  | 0x4E => "Teac"
  | 0x50 => "Matsushita"
  | 0x51 => "Fostex"
  | 0x52 => "Zoom"
  | 0x54 => "Matsushita"
  | 0x55 => "Suzuki"
  | 0x56 => "Fuji Sound"
  | 0x57 => "Acoustic Technical Laboratory"
  | 0x7E => "Universal Non Realtime Message (UNRT)"
  | 0x7F => "Universal Realtime Message (URT)"
  | _ => "Unknown Manufacturer: " ++ natToHexUpper manufacturerId

/-- The key-name table of the Key Signature meta case, keyed (as in JavaScript
object lookup) by the string form of the `keySignature` byte, with the
`|| 'Unknown Key'` fallback. -/
def keySignatureName (s : String) : String :=
  match s with
  | "-7" => "C♭"
  | "-6" => "G♭"
  | "-5" => "D♭"
  | "-4" => "A♭"
  | "-3" => "E♭"
  | "-2" => "B♭"
  | "-1" => "F"
  | "0" => "C"
  | "1" => "G"
  | "2" => "D"
  | "3" => "A"
  | "4" => "E"
  | "5" => "B"
  | "6" => "F♯"
  | "7" => "C♯"
  | _ => "Unknown Key"

/-- The SMPTE frame-rate table; the index is `(hourByte >> 5) & 0x03 ≤ 3`, so
the `Unknown Frame Rate` fallback of the source is unreachable. -/
def frameRateOf (bits : Nat) : ℚ :=
  match bits with
  | 0 => 24
  | 1 => 25
  | 2 => 2997 / 100
  | _ => 30

/-- The M-Live tag-label switch.  Its default arm interpolates `event.tag`,
which is never assigned in the source, hence the literal text `undefined`. -/
def mLiveTagLabel (tag : Nat) : String :=
  match tag with
  | 0x01 => "Genre"
  | 0x02 => "Artist"
  | 0x03 => "Composer"
  | 0x04 => "Duration (seconds)"
  | 0x05 => "BPM (Tempo)"
  | _ => "Unknown Tag: undefined"

/-!
## The parser

`AudioMIDI.parse`.  The decode state: the cursor, the instance fields it
mutates, the chunk list, the current track's event list, and — declared
*outside* the track loop in the source — the active-note map and tick counter.
An active note stores a reference to its Note On event, modelled as the
event's index in the flattened sequence of all decoded events.
-/

structure ActiveNote where
  startTime : Int
  velocity : Nat
  ref : Nat
deriving DecidableEq

structure PST where
  cur : Cursor
  format : Nat
  trackCount : Nat
  timeDivision : Option Nat
  chunks : List MTrack
  events : List MEvent
  activeNotes : List (Nat × ActiveNote)
  currentTime : Int
  lastStatus : Option Nat
deriving DecidableEq

/-- JavaScript `Map.get` (insertion-ordered association list model). -/
def mapGet {κ α : Type} [DecidableEq κ] (m : List (κ × α)) (k : κ) : Option α :=
  match m with
  | [] => none
  | p :: rest => if p.1 = k then some p.2 else mapGet rest k

/-- JavaScript `Map.set`: replace in place, or append a new entry. -/
def mapSet {κ α : Type} [DecidableEq κ] (m : List (κ × α)) (k : κ) (v : α) : List (κ × α) :=
  match m with
  | [] => [(k, v)]
  | p :: rest => if p.1 = k then (k, v) :: rest else p :: mapSet rest k v

/-- JavaScript `Map.delete`. -/
def mapDelete {κ α : Type} [DecidableEq κ] (m : List (κ × α)) (k : κ) : List (κ × α) :=
  match m with
  | [] => []
  | p :: rest => if p.1 = k then rest else p :: mapDelete rest k

/-- `noteOnData.noteOnEvent.data.length = noteLength`: the decoder only ever
stores references to Note On events it just created, so only that shape is
patched. -/
def patchNoteLength (e : MEvent) (len : Int) : MEvent :=
  match e.data with
  | .noteOn n v _ => { e with data := .noteOn n v (some len) }
  | _ => e

def patchEvents (es : List MEvent) (i : Nat) (len : Int) : List MEvent :=
  match es, i with
  | [], _ => []
  | e :: rest, 0 => patchNoteLength e len :: rest
  | e :: rest, n + 1 => e :: patchEvents rest n len

def patchChunks (cs : List MTrack) (i : Nat) (len : Int) : List MTrack :=
  match cs with
  | [] => []
  | t :: rest =>
    if i < t.events.length then { t with events := patchEvents t.events i len } :: rest
    else t :: patchChunks rest (i - t.events.length) len

def chunksLen (cs : List MTrack) : Nat := (cs.map (fun t => t.events.length)).sum

def PST.flatLen (st : PST) : Nat := chunksLen st.chunks + st.events.length

/-- Apply the Note Off back-patch through the stored event reference. -/
def patchRef (st : PST) (ref : Nat) (len : Int) : PST :=
  if ref < chunksLen st.chunks then { st with chunks := patchChunks st.chunks ref len }
  else { st with events := patchEvents st.events (ref - chunksLen st.chunks) len }

/-- The SysEx data loop: read bytes until the EOX marker 0xF7 (exclusive).
Fuel-indexed; each round consumes one byte, and reading past the end
underflows, so `remainingBytes + 1` fuel is always enough. -/
def readSysExData (fuel : Nat) (c : Cursor) (acc : List Nat) : Option (List Nat × Cursor) :=
  match fuel with
  | 0 => none
  | fuel + 1 =>
    match c.readUInt8 with
    | none => none
    | some (byte, c1) =>
      if byte = 0xF7 then some (acc, c1) else readSysExData fuel c1 (acc ++ [byte])

/-- The repeated `length = readVariableLengthValues(); data = read(length)`
pattern of the system common / real-time cases. -/
def readLengthBlob (c : Cursor) : Option (List Nat × Cursor) := do
  let (length, c) ← readVariableLengthValues c
  let (data, c) ← c.read length
  pure (data, c)

/-- The meta-event (status 0xFF) arm of the event switch. -/
def dispatchMeta (st : PST) (deltaTime : Int) : Option (MEvent × PST) := do
  let (metaType, c) ← st.cur.readUInt8
  let (metaEventLength, c) ← readVariableLengthValues c
  let base : MEvent :=
    { deltaTime, type := some 0xFF, metaType := some metaType,
      metaEventLength := some metaEventLength }
  match metaType with
  | 0x00 =>
    if metaEventLength = 2 then do
      let (byte1, c) ← c.readUInt8
      let (byte2, c) ← c.readUInt8
      pure ({ base with data := .seqNumber ((byte1 <<< 8) + byte2) "Provided",
                        label := some "Sequence Number" }, { st with cur := c })
    else
      let c := c.advance 1
      pure ({ base with data := .seqNumber st.trackCount "Next Track Index",
                        label := some "Sequence Number" }, { st with cur := c })
  | 0x01 => do
    let (s, c) ← c.readStringI metaEventLength
    pure ({ base with data := .str s, label := some "Text Event" }, { st with cur := c })
  | 0x02 => do
    let (s, c) ← c.readStringI metaEventLength
    pure ({ base with data := .str s, label := some "Copyright Notice" }, { st with cur := c })
  | 0x03 => do
    let (s, c) ← c.readStringI metaEventLength
    pure ({ base with data := .str s, label := some "Sequence / Track Name" }, { st with cur := c })
  | 0x04 => do
    let (s, c) ← c.readStringI metaEventLength
    pure ({ base with data := .str s, label := some "Instrument Name" }, { st with cur := c })
  | 0x05 => do
    let (s, c) ← c.readStringI metaEventLength
    pure ({ base with data := .str s, label := some "Lyrics" }, { st with cur := c })
  | 0x06 => do
    let (s, c) ← c.readStringI metaEventLength
    pure ({ base with data := .str s, label := some "Marker" }, { st with cur := c })
  | 0x07 => do
    let (s, c) ← c.readStringI metaEventLength
    pure ({ base with data := .str s, label := some "Cue Point" }, { st with cur := c })
  | 0x08 => do
    let (s, c) ← c.readStringI metaEventLength
    pure ({ base with data := .str s, label := some "Program Name" }, { st with cur := c })
  | 0x09 => do
    let (s, c) ← c.readStringI metaEventLength
    pure ({ base with data := .str s, label := some "Device (Port) Name" }, { st with cur := c })
  | 0x20 => do
    let (b, c) ← c.readUInt8
    pure ({ base with data := .num b, label := some "Channel Prefix" }, { st with cur := c })
  | 0x21 => do
    let (b, c) ← c.readUInt8
    pure ({ base with data := .num b, label := some "MIDI Port" }, { st with cur := c })
  | 0x2F =>
    pure ({ base with data := .str "", label := some "End of Track" }, { st with cur := c })
  | 0x4B => do
    let (tag, c) ← c.readUInt8
    let tagLabel := mLiveTagLabel tag
    let (tagValue, c) ← c.read metaEventLength
    pure ({ base with data := .mLiveTag tag tagLabel tagValue, label := some "M-Live Tag" },
          { st with cur := c })
  | 0x51 =>
    if metaEventLength ≠ 3 then do
      let (bs, c) ← c.read metaEventLength
      pure ({ base with data := .bytes bs }, { st with cur := c })
    else do
      let (byte1, c) ← c.readUInt8
      let (byte2, c) ← c.readUInt8
      let (byte3, c) ← c.readUInt8
      let tempo := (byte1 <<< 16) + (byte2 <<< 8) + byte3
      let bpm := if tempo = 0 then none else some (jsRound (60000000 / (tempo : ℚ)))
      pure ({ base with data := .setTempo byte1 byte2 byte3 tempo bpm,
                        label := some "Set Tempo" }, { st with cur := c })
  | 0x54 => do
    let (hourByte, c) ← c.readUInt8
    let (minute, c) ← c.readUInt8
    let (second, c) ← c.readUInt8
    let (frame, c) ← c.readUInt8
    let (subFrame, c) ← c.readUInt8
    let frameRateBits := (hourByte >>> 5) &&& 0x03
    let frameRate := frameRateOf frameRateBits
    let hour := hourByte &&& 0x1F
    pure ({ base with data := .smpteOffset hourByte hour minute second frame subFrame frameRate,
                      label := some "SMPTE Offset" }, { st with cur := c })
  | 0x58 => do
    let (numerator, c) ← c.readUInt8
    let (denominator, c) ← c.readUInt8
    let (metronome, c) ← c.readUInt8
    let (thirtySecondNotes, c) ← c.readUInt8
    pure ({ base with data := .timeSignature numerator denominator metronome thirtySecondNotes,
                      label := some "Time Signature" }, { st with cur := c })
  | 0x59 =>
    if metaEventLength ≠ 2 then do
      let (bs, c) ← c.read metaEventLength
      pure ({ base with data := .bytes bs }, { st with cur := c })
    else do
      let (keySignature, c) ← c.readUInt8
      let (majorOrMinor, c) ← c.readUInt8
      let keyName := keySignatureName (toString keySignature)
      let mode := if majorOrMinor = 0 then "Major" else "Minor"
      pure ({ base with data := .keySignature keySignature majorOrMinor keyName mode,
                        label := some "Key Signature" }, { st with cur := c })
  | 0x7F => do
    let (bs, c) ← c.read metaEventLength
    pure ({ base with data := .bytes bs, label := some "Sequencer Specific" }, { st with cur := c })
  | _ => do
    let (bs, c) ← c.read metaEventLength
    pure ({ base with data := .bytes bs }, { st with cur := c })

/-- The channel-voice / unknown default arm of the event switch (the source
re-dispatches on the upper nibble; an undefined event type behaves as 0 under
the bitwise shifts). -/
def dispatchChannel (st : PST) (eventType : Option Nat) (deltaTime : Int) :
    Option (MEvent × PST) :=
  let type := eventType
  let channel := eventType.map (fun t => t &&& 0x0F)
  let innerType := match eventType with | some t => (t >>> 4) &&& 0x0F | none => 0
  match innerType with
  | 0x8 => do
    let (note, c) ← st.cur.readUInt8
    let (velocity, c) ← c.readUInt8
    match mapGet st.activeNotes note with
    | some noteOnData =>
      let noteLength := st.currentTime - noteOnData.startTime
      let st1 := patchRef { st with cur := c } noteOnData.ref noteLength
      let st2 := { st1 with activeNotes := mapDelete st1.activeNotes note }
      pure ({ deltaTime, type, channel, data := .noteOff (toString note) velocity noteLength,
              label := some "Note Off" }, st2)
    | none =>
      pure ({ deltaTime, type, channel, data := .noteOff (toString note) velocity 0,
              label := some "Note Off" }, { st with cur := c })
  | 0x9 => do
    let (note, c) ← st.cur.readUInt8
    let (velocity, c) ← c.readUInt8
    let ev : MEvent :=
      { deltaTime, type, channel, data := .noteOn note velocity none, label := some "Note On" }
    pure (ev, { st with
                cur := c,
                activeNotes := mapSet st.activeNotes note
                  ⟨st.currentTime, velocity, st.flatLen⟩ })
  | 0xA => do
    let (note, c) ← st.cur.readUInt8
    let (velocity, c) ← c.readUInt8
    pure ({ deltaTime, type, channel, data := .noteAftertouch note velocity,
            label := some "Note Aftertouch" }, { st with cur := c })
  | 0xB => do
    let (controller, c) ← st.cur.readUInt8
    let (value, c) ← c.readUInt8
    pure ({ deltaTime, type, channel,
            data := .controllerData controller value (getControllerLabel controller),
            label := some "Controller" }, { st with cur := c })
  | 0xC => do
    let (b, c) ← st.cur.readUInt8
    pure ({ deltaTime, type, channel, data := .num b, label := some "Program Change" },
          { st with cur := c })
  | 0xD => do
    let (b, c) ← st.cur.readUInt8
    pure ({ deltaTime, type, channel, data := .num b, label := some "Channel Aftertouch" },
          { st with cur := c })
  | 0xE => do
    let (firstByte, c) ← st.cur.readUInt8
    let (secondByte, c) ← c.readUInt8
    let pitchValue := (secondByte <<< 7) + firstByte
    pure ({ deltaTime, type, channel, data := .pitchBend pitchValue firstByte secondByte,
            label := some "Pitch Bend Event" }, { st with cur := c })
  | 0xF => do
    let (bs, c) ← readLengthBlob st.cur
    pure ({ deltaTime, type, channel, data := .bytes bs }, { st with cur := c })
  | _ =>
    pure ({ deltaTime, type, channel }, st)

/-- The full event-type switch. -/
def dispatchEvent (st : PST) (eventType : Option Nat) (deltaTime : Int) :
    Option (MEvent × PST) :=
  match eventType with
  | some 0xF0 => do
    let (manufacturerId, c) ← st.cur.readUInt8
    let manufacturerLabel := getManufacturerLabel manufacturerId
    let (data, c) ← readSysExData (c.remainingBytes + 1) c []
    pure ({ deltaTime, data := .sysEx manufacturerId manufacturerLabel data }, { st with cur := c })
  | some 0xF2 => do
    let (msb, c) ← st.cur.readUInt8
    let (lsb, c) ← c.readUInt8
    pure ({ deltaTime, data := .songPosition msb lsb, label := some "Song Position Pointer" },
          { st with cur := c })
  | some 0xF3 => do
    let (bs, c) ← readLengthBlob st.cur
    pure ({ deltaTime, data := .bytes bs, label := some "System Common Messages - Song Select" },
          { st with cur := c })
  | some 0xF4 => do
    let (bs, c) ← readLengthBlob st.cur
    pure ({ deltaTime, data := .bytes bs,
            label := some "System Real Time Messages - Undefined 0xF4 (Reserved)" },
          { st with cur := c })
  | some 0xF5 => do
    let (bs, c) ← readLengthBlob st.cur
    pure ({ deltaTime, data := .bytes bs,
            label := some "System Real Time Messages - Undefined 0xF5 (Reserved)" },
          { st with cur := c })
  | some 0xF6 => do
    let (bs, c) ← readLengthBlob st.cur
    pure ({ deltaTime, data := .bytes bs, label := some "System Common Messages - Tune Request" },
          { st with cur := c })
  | some 0xF7 => do
    let (bs, c) ← readLengthBlob st.cur
    pure ({ deltaTime, data := .bytes bs, label := some "System Common Messages - EOX" },
          { st with cur := c })
  | some 0xF8 => do
    let (bs, c) ← readLengthBlob st.cur
    pure ({ deltaTime, data := .bytes bs, label := some "System Real Time Messages - MIDI Clock" },
          { st with cur := c })
  | some 0xF9 => do
    let (bs, c) ← readLengthBlob st.cur
    pure ({ deltaTime, data := .bytes bs,
            label := some "System Real Time Messages - Undefined 0xF9 (Reserved)" },
          { st with cur := c })
  | some 0xFA => do
    let (bs, c) ← readLengthBlob st.cur
    pure ({ deltaTime, data := .bytes bs, label := some "System Real Time Messages - Start" },
          { st with cur := c })
  | some 0xFB => do
    let (bs, c) ← readLengthBlob st.cur
    pure ({ deltaTime, data := .bytes bs, label := some "System Real Time Messages - Continue" },
          { st with cur := c })
  | some 0xFC => do
    let (bs, c) ← readLengthBlob st.cur
    pure ({ deltaTime, data := .bytes bs, label := some "System Real Time Messages - Stop" },
          { st with cur := c })
  | some 0xFD => do
    let (bs, c) ← readLengthBlob st.cur
    pure ({ deltaTime, data := .bytes bs,
            label := some "System Real Time Messages - Undefined 0xFD (Reserved)" },
          { st with cur := c })
  | some 0xFE => do
    let (bs, c) ← readLengthBlob st.cur
    pure ({ deltaTime, data := .bytes bs,
            label := some "System Real Time Messages - Active Sensing" },
          { st with cur := c })
  | some 0xFF => dispatchMeta st deltaTime
  | _ => dispatchChannel st eventType deltaTime

/-- One iteration of the per-track `while (this.remainingBytes() > 0)` loop:
delta time, running-status resolution, event dispatch, push. -/
def readOneEvent (st : PST) : Option PST := do
  let (deltaTime, c) ← readVariableLengthValues st.cur
  let st := { st with cur := c, currentTime := st.currentTime + deltaTime }
  let (b, c1) ← st.cur.readUInt8
  let (eventType, st) :=
    if 128 ≤ b then (some b, { st with cur := c1, lastStatus := some b })
    else (st.lastStatus, { st with cur := c1.rewind 1 })
  let (ev, st) ← dispatchEvent st eventType deltaTime
  pure { st with events := st.events ++ [ev] }

/-- The per-track event loop (fuel-indexed; each iteration consumes at least
one byte, so `remainingBytes + 1` fuel always suffices). -/
def eventLoop (fuel : Nat) (st : PST) : Option PST :=
  match fuel with
  | 0 => if 0 < st.cur.remainingBytes then none else some st
  | fuel + 1 =>
    if 0 < st.cur.remainingBytes then
      match readOneEvent st with
      | some st1 => eventLoop fuel st1
      | none => none
    else some st

/-- The outer `for (let t = 0; t < header.trackCount; t++)` loop. -/
def trackLoop (n : Nat) (st : PST) : Option PST :=
  match n with
  | 0 => some st
  | n + 1 =>
    if st.cur.remainingBytes = 0 then some st
    else
      match st.cur.readString 4 with
      | none => none
      | some (ttype, c) =>
        match c.readUInt32 with
        | none => none
        | some (chunkLength, c) =>
          if ttype ≠ "MTrk" then some { st with cur := c }
          else
            let st1 : PST := { st with cur := c, events := [], lastStatus := none }
            match eventLoop (st1.cur.remainingBytes + 1) st1 with
            | none => none
            | some st2 =>
              trackLoop n { st2 with
                chunks := st2.chunks ++ [⟨ttype, chunkLength, st2.events⟩], events := [] }

/-- `AudioMIDI.parse`, from a fresh instance over the given bytes. -/
def parse (input : List Nat) : Option PST := do
  let c0 : Cursor := ⟨input, 0⟩
  let (chunk, c) ← c0.read 14
  let header ← decodeHeader chunk
  let st : PST :=
    { cur := c, format := header.format, trackCount := header.trackCount,
      timeDivision := header.timeDivision, chunks := [], events := [],
      activeNotes := [], currentTime := 0, lastStatus := none }
  trackLoop header.trackCount st

/-!
## Note-name conversion

`AudioMIDI.noteToMidi` and `AudioMIDI.midiToNote` at their default arguments.
-/

/-- The default `noteMap` argument of `noteToMidi`. -/
def defaultNoteMap (note : String) : Option Nat :=
  match note with
  | "C" => some 0
  | "C#" => some 1
  | "D" => some 2
  | "D#" => some 3
  | "E" => some 4
  | "E#" => some 5
  | "F" => some 5
  | "F#" => some 6
  | "G" => some 7
  | "G#" => some 8
  | "A" => some 9
  | "A#" => some 10
  | "B" => some 11
  | "B#" => some 0
  | _ => none

/-- The default `noteNames` argument of `midiToNote`; the index is `v % 12`,
so the out-of-range arm is unreachable. -/
def defaultNoteNames (i : Nat) : String :=
  match i with
  | 0 => "C"
  | 1 => "C#"
  | 2 => "D"
  | 3 => "D#"
  | 4 => "E"
  | 5 => "F"
  | 6 => "F#"
  | 7 => "G"
  | 8 => "G#"
  | 9 => "A"
  | 10 => "A#"
  | 11 => "B"
  | _ => "undefined"

/-- The regular expression `^([A-G]#?)(-?\d+)$` of `noteToMidi`, returning the
note group and the parsed (signed decimal) octave group.  The optional `#` is
taken greedily; backtracking cannot produce a different successful match since
`#` can start neither `-?` nor `\d+`. -/
def matchNoteString (s : String) : Option (String × Int) :=
  match s.data with
  | [] => none
  | c :: rest =>
    if 'A' ≤ c ∧ c ≤ 'G' then
      let (note, rest2) :=
        match rest with
        | '#' :: r2 => (String.mk [c, '#'], r2)
        | _ => (String.mk [c], rest)
      let (neg, digits) :=
        match rest2 with
        | '-' :: r3 => (true, r3)
        | _ => (false, rest2)
      if digits ≠ [] ∧ digits.all (fun ch => ch.isDigit) then
        let n : Nat := digits.foldl (fun acc ch => acc * 10 + (ch.toNat - 48)) 0
        some (note, if neg then -(n : Int) else (n : Int))
      else none
    else none

/-- `AudioMIDI.noteToMidi` at the default octave offset 2.  Every
regex-matched note name is a key of the default map, so `getD 0` never
supplies its fallback. -/
def noteToMidi (noteString : String) (octaveOffset : Int := 2) : Except String Int :=
  match matchNoteString noteString with
  | none => .error ("Invalid note format: " ++ noteString)
  | some (note, octave) =>
    let midiNumber := (octave + octaveOffset) * 12 + ((defaultNoteMap note).getD 0 : Int)
    if midiNumber < 0 ∨ midiNumber > 127 then
      .error ("Note out of valid MIDI range: " ++ noteString)
    else .ok midiNumber

/-- `AudioMIDI.midiToNote` at the default octave offset 2. -/
def midiToNote (midiValue : Int) (octaveOffset : Int := 2) : Except String String :=
  if midiValue < 0 ∨ midiValue > 127 then
    .error ("Invalid MIDI value: " ++ toString midiValue ++ ". Must be between 0 and 127.")
  else
    let noteIndex := midiValue.toNat % 12
    let octave := (midiValue.toNat / 12 : Int) - octaveOffset
    .ok (defaultNoteNames noteIndex ++ toString octave)

/-!
## getUsedNotes
-/

/-- `parseInt(s, 10)`: leading whitespace skipped, optional sign, maximal
decimal-digit prefix; no digits gives `NaN` (`none`). -/
def jsParseInt (s : String) : Option Int :=
  let cs := s.data.dropWhile (fun ch => ch.isWhitespace)
  let (sign, cs2) :=
    match cs with
    | '-' :: rest => ((-1 : Int), rest)
    | '+' :: rest => ((1 : Int), rest)
    | _ => ((1 : Int), cs)
  let digits := cs2.takeWhile (fun ch => ch.isDigit)
  if digits.isEmpty then none
  else some (sign * (digits.foldl (fun acc ch => acc * 10 + (ch.toNat - 48)) (0 : Nat) : Nat))

/-- The `note` property of an event-data object (`string` for decoded
Note Offs, number for decoded Note Ons). -/
def EData.noteProp : EData → Option (String ⊕ Nat)
  | .noteOff s _ _ => some (.inl s)
  | .noteOn n _ _ => some (.inr n)
  | .noteAftertouch n _ => some (.inr n)
  | _ => none

/-- The `velocity` property of an event-data object. -/
def EData.velocityProp : EData → Option Nat
  | .noteOff _ v _ => some v
  | .noteOn _ v _ => some v
  | .noteAftertouch _ v => some v
  | _ => none

/-- `typeof event.data === 'object'` (arrays and objects; not strings,
numbers or undefined). -/
def EData.isObject : EData → Bool
  | .undef => false
  | .str _ => false
  | .num _ => false
  | _ => true

/-- The filter `event?.type === 0.90` of `getUsedNotes`: the numeric literal
is 0.90 (about nine tenths), not the status byte 0x90.  An integer event type
can never be strictly equal to it. -/
def usedNoteFilter (t : Option Nat) : Bool :=
  match t with
  | some n => decide ((n : ℚ) = 9 / 10)
  | none => false

/-- `typeof note === 'string' ? parseInt(note, 10) : note`
(`none` is `NaN`). -/
def noteNumberOf : (String ⊕ Nat) → Option Int
  | .inl s => jsParseInt s
  | .inr n => some n

/-- JavaScript `Set` insertion (insertion-ordered, no duplicates). -/
def setAdd (l : List Int) (x : Int) : List Int := if x ∈ l then l else l ++ [x]

/-- The note-number collection loop of `getUsedNotes`. -/
def collectUsedNotes (chunks : List MTrack) : List Int :=
  chunks.foldl
    (fun acc track =>
      (track.events.filter (fun e => usedNoteFilter e.type)).foldl
        (fun acc e =>
          if e.data.isObject ∧ e.data.velocityProp ≠ none ∧ 0 < e.data.velocityProp.getD 0 then
            match e.data.noteProp.bind noteNumberOf with
            | some noteNumber => setAdd acc noteNumber
            | none => acc
          else acc)
        acc)
    []

/-- `[...noteNumbers].sort((a, b) => a - b)`: a stable numeric sort
(insertion sort; the sorted result is what the call contract fixes). -/
def sortInsert (x : Int) : List Int → List Int
  | [] => [x]
  | y :: rest => if x ≤ y then x :: y :: rest else y :: sortInsert x rest

def jsSortNumeric : List Int → List Int
  | [] => []
  | x :: rest => sortInsert x (jsSortNumeric rest)

/-- `AudioMIDI.getUsedNotes` (operating on `this.chunks`); the `midiToNote`
calls may throw. -/
def getUsedNotes (chunks : List MTrack) : Except String (List (Int × String)) := do
  let sortedNoteNumbers := jsSortNumeric (collectUsedNotes chunks)
  sortedNoteNumbers.mapM (fun noteNumber => do
    let noteString ← midiToNote noteNumber
    pure (noteNumber, noteString))

/-!
## Validator

`AudioMIDI.validate`.  The per-track active-note map has the parsed
(`parseInt`) note number as key; a `NaN` key (`none`) is a single `Map` key
under SameValueZero.
-/

/-- An `AudioMIDI` instance as the validator and encoder see it: the header
fields plus `this.chunks`. -/
structure AMIDI where
  format : Nat
  trackCount : Nat
  timeDivision : Option Nat
  chunks : List MTrack
deriving DecidableEq

def PST.toInstance (r : PST) : AMIDI :=
  ⟨r.format, r.trackCount, r.timeDivision, r.chunks⟩

/-- JavaScript falsiness of an event-data value: `undefined`, `''` and `0` are
falsy; objects and arrays are truthy. -/
def EData.falsy : EData → Bool
  | .undef => true
  | .str s => s = ""
  | .num n => n = 0
  | _ => false

/-- String interpolation of a possibly-`NaN` number. -/
def optIntToString : Option Int → String
  | none => "NaN"
  | some i => toString i

/-- String interpolation of a possibly-`undefined` number. -/
def optIntToStringU : Option Int → String
  | none => "undefined"
  | some i => toString i

structure VState where
  issues : List String
  activeNotes : List (Option Int × Nat)
  gotEndOfTrack : Bool
deriving DecidableEq

def VState.push (s : VState) (msg : String) : VState := { s with issues := s.issues ++ [msg] }

/-- The body of the per-event `forEach` of `validate` (the
`JSON.stringify(event.data)` payloads of the missing-data messages are not
reproduced). -/
def validateEvent (trackIndex eventIndex : Nat) (s : VState) (e : MEvent) : VState :=
  let s :=
    if e.deltaTime < 0 then
      s.push ("Track " ++ toString trackIndex ++ " event " ++ toString eventIndex ++
        " has negative deltaTime " ++ toString e.deltaTime ++ ".")
    else s
  if e.type = some 0x90 then
    if e.data.falsy ∨ e.data.noteProp = none ∨ e.data.velocityProp = none then
      s.push ("Track " ++ toString trackIndex ++ " event " ++ toString eventIndex ++
        " missing note/velocity data")
    else
      let noteOnNumber := e.data.noteProp.bind noteNumberOf
      if 0 < e.data.velocityProp.getD 0 then
        let count := (mapGet s.activeNotes noteOnNumber).getD 0
        { s with activeNotes := mapSet s.activeNotes noteOnNumber (count + 1) }
      else
        let count := (mapGet s.activeNotes noteOnNumber).getD 0
        if count ≤ 0 then
          s.push ("Track " ++ toString trackIndex ++ " event " ++ toString eventIndex ++
            " tries to Note Off note " ++ optIntToString noteOnNumber ++ " which was not active.")
        else { s with activeNotes := mapSet s.activeNotes noteOnNumber (count - 1) }
  else if e.type = some 0x80 then
    if e.data.falsy ∨ e.data.noteProp = none then
      s.push ("Track " ++ toString trackIndex ++ " event " ++ toString eventIndex ++
        " missing note for Note Off")
    else
      let noteOffNumber := e.data.noteProp.bind noteNumberOf
      let count := (mapGet s.activeNotes noteOffNumber).getD 0
      if count ≤ 0 then
        s.push ("Track " ++ toString trackIndex ++ " event " ++ toString eventIndex ++
          " tries to Note Off note " ++ optIntToString noteOffNumber ++ " which was not active.")
      else { s with activeNotes := mapSet s.activeNotes noteOffNumber (count - 1) }
  else if e.type = some 0xFF then
    if e.metaType = none then
      s.push ("Track " ++ toString trackIndex ++ " event " ++ toString eventIndex ++
        " has missing metaType")
    else if e.metaType = some 0x2F then
      let s := { s with gotEndOfTrack := true }
      if e.metaEventLength ≠ some 0 then
        s.push ("Track " ++ toString trackIndex ++ " event " ++ toString eventIndex ++
          " End-of-Track has metaEventLength=" ++ optIntToStringU e.metaEventLength ++
          ", expected=0")
      else s
    else if e.metaType = some 0x51 then
      if e.metaEventLength ≠ some 3 then
        s.push ("Track " ++ toString trackIndex ++ " event " ++ toString eventIndex ++
          " Tempo event has metaEventLength=" ++ optIntToStringU e.metaEventLength ++
          ", expected=3")
      else s
    else if e.metaType = some 0x58 then
      if e.metaEventLength ≠ some 4 then
        s.push ("Track " ++ toString trackIndex ++ " event " ++ toString eventIndex ++
          " Time Signature has metaEventLength=" ++ optIntToStringU e.metaEventLength ++
          ", expected=4")
      else s
    else if e.metaType = some 0x59 then
      if e.metaEventLength ≠ some 2 then
        s.push ("Track " ++ toString trackIndex ++ " event " ++ toString eventIndex ++
          " Key Signature has metaEventLength=" ++ optIntToStringU e.metaEventLength ++
          ", expected=2")
      else s
    else if e.metaType = some 0x54 then
      if e.metaEventLength ≠ some 5 then
        s.push ("Track " ++ toString trackIndex ++ " event " ++ toString eventIndex ++
          " SMPTE Offset has metaEventLength=" ++ optIntToStringU e.metaEventLength ++
          ", expected=5")
      else s
    else if e.metaType = some 0x00 then
      if e.metaEventLength ≠ some 2 ∧ e.metaEventLength ≠ some 0 then
        s.push ("Track " ++ toString trackIndex ++ " event " ++ toString eventIndex ++
          " Sequence Number has metaEventLength=" ++ optIntToStringU e.metaEventLength ++
          ", expected=2 or 0")
      else s
    else s
  else s

/-- The indexed event fold of `validate` over one track. -/
def validateEventsAux (trackIndex eventIndex : Nat) (s : VState) : List MEvent → VState
  | [] => s
  | e :: rest =>
    validateEventsAux trackIndex (eventIndex + 1) (validateEvent trackIndex eventIndex s e) rest

/-- The leftover-active-note report at the end of a track. -/
def unmatchedIssues (trackIndex : Nat) (m : List (Option Int × Nat)) : List String :=
  (m.filter (fun p => 0 < p.2)).map (fun p =>
    "Track " ++ toString trackIndex ++ " has " ++ toString p.2 ++
      " unmatched Note On for note " ++ optIntToString p.1 ++ ".")

/-- The per-chunk body of `validate`. -/
def validateTrack (trackIndex : Nat) (track : MTrack) : List String :=
  let issues : List String :=
    if track.type ≠ "MThd" ∧ track.type ≠ "MTrk" then
      ["Track " ++ toString trackIndex ++ " has unknown chunk type: \"" ++ track.type ++ "\"."]
    else []
  let issues := issues ++
    (if track.type = "MTrk" then
      if track.chunkLength = 0 ∧ 0 < track.events.length then
        ["Track " ++ toString trackIndex ++ " chunkLength=0 but has " ++
          toString track.events.length ++ " events."]
      else if 0 < track.chunkLength ∧ track.events.length = 0 then
        ["Track " ++ toString trackIndex ++ " chunkLength=" ++ toString track.chunkLength ++
          " but has 0 events."]
      else []
    else [])
  if track.type ≠ "MTrk" then issues
  else
    let st := validateEventsAux trackIndex 0 ⟨[], [], false⟩ track.events
    let issues := issues ++ st.issues
    let issues := issues ++
      (if ¬ st.gotEndOfTrack then
        ["Track " ++ toString trackIndex ++ " missing End-of-Track (0xFF 2F) event."]
      else [])
    issues ++ unmatchedIssues trackIndex st.activeNotes

/-- `AudioMIDI.validate`. -/
def validate (m : AMIDI) : List String :=
  let issues : List String :=
    if 2 < m.format then ["Unsupported MIDI format: " ++ toString m.format ++ "."] else []
  let issues := issues ++
    (if m.trackCount ≠ m.chunks.length then
      ["Header trackCount=" ++ toString m.trackCount ++ ", but parsed chunk count=" ++
        toString m.chunks.length ++ "."]
    else [])
  issues ++ ((m.chunks.enum.map (fun p => validateTrack p.1 p.2)).flatten)

/-!
## Encoder

`saveToDataBuffer`, `writeChunk`, `writeEvent`, `writeEventData`.  The output
`DataBuffer` is a byte list with a writing cursor; `writeChunk` seeks back to
patch the reserved chunk length.
-/

structure DataBuf where
  data : List Nat
  offset : Nat
deriving DecidableEq

def DataBuf.writeUInt8 (db : DataBuf) (v : Nat) : DataBuf :=
  if db.offset < db.data.length then ⟨db.data.set db.offset (v % 256), db.offset + 1⟩
  else ⟨db.data ++ [v % 256], db.offset + 1⟩

def DataBuf.writeBytes (db : DataBuf) (bs : List Nat) : DataBuf :=
  bs.foldl DataBuf.writeUInt8 db

def DataBuf.writeUInt16 (db : DataBuf) (v : Nat) : DataBuf :=
  (db.writeUInt8 (v >>> 8)).writeUInt8 v

def DataBuf.writeUInt32 (db : DataBuf) (v : Nat) : DataBuf :=
  (((db.writeUInt8 (v >>> 24)).writeUInt8 (v >>> 16)).writeUInt8 (v >>> 8)).writeUInt8 v

def DataBuf.writeString (db : DataBuf) (s : String) : DataBuf :=
  db.writeBytes (s.data.map Char.toNat)

def DataBuf.seek (db : DataBuf) (p : Nat) : DataBuf := ⟨db.data, p⟩

/-- UTF-8 bytes of a string (`new TextEncoder().encode(data)`). -/
def utf8Bytes (s : String) : List Nat := s.toUTF8.toList.map (fun b => b.toNat)

/-- An element of an array payload handed to `writeEventData` (a byte value or
a decimal note string; `ToUint8` coerces a string through its numeric value,
`NaN` storing as 0). -/
inductive JsVal where
  | num (n : Nat)
  | str (s : String)
deriving DecidableEq

def JsVal.toByte : JsVal → Nat
  | .num n => n % 256
  | .str s =>
    match jsParseInt s with
    | some i => (i % 256).toNat
    | none => 0

/-- The payload argument of `writeEventData`, by the `instanceof` /
`Array.isArray` / `typeof` branches of the source (`arr` elements may be
`undefined`). -/
inductive WPayload where
  | uint8array (bs : List Nat)
  | arr (elems : List (Option JsVal))
  | strPayload (s : String)
  | other
deriving DecidableEq

/-- `AudioMIDI.writeEventData`. -/
def writeEventData (db : DataBuf) (data : WPayload) : Except String DataBuf :=
  match data with
  | .uint8array bs => .ok (db.writeBytes bs)
  | .arr elems =>
    if elems.any (fun e => e = none) then .error "Invalid data"
    else .ok (elems.foldl (fun db e => db.writeUInt8 ((e.getD (JsVal.num 0)).toByte)) db)
  | .strPayload s => .ok (db.writeBytes (utf8Bytes s))
  | .other => .error "Invalid writeEventData"

/-- The `note` property as an array element (string for decoded Note Offs). -/
def EData.noteVal (d : EData) : Option JsVal :=
  match d.noteProp with
  | some (.inl s) => some (.str s)
  | some (.inr n) => some (.num n)
  | none => none

/-- `data.controllerNumber` — only present on encoder-side Control Change
payloads (the decoder stores the field as `controller`). -/
def EData.controllerNumberProp : EData → Option Nat
  | .ccWrite cn _ => some cn
  | _ => none

/-- `data.value`. -/
def EData.valueProp : EData → Option Nat
  | .ccWrite _ v => some v
  | .controllerData _ v _ => some v
  | _ => none

/-- `data.sequenceNumber`. -/
def EData.sequenceNumberProp : EData → Option Nat
  | .seqNumber n _ => some n
  | _ => none

/-- `data.msb` / `data.lsb` (present on decoded Song Position Pointers; the
decoder stores Pitch Bend bytes as `firstByte`/`secondByte`, not `lsb`/`msb`). -/
def EData.msbProp : EData → Option Nat
  | .songPosition msb _ => some msb
  | _ => none

def EData.lsbProp : EData → Option Nat
  | .songPosition _ lsb => some lsb
  | _ => none

def EData.manufacturerIdProp : EData → Option Nat
  | .sysEx id _ _ => some id
  | _ => none

def EData.sysExDataProp : EData → Option (List Nat)
  | .sysEx _ _ ds => some ds
  | _ => none

def EData.byte1Prop : EData → Option Nat
  | .setTempo b1 _ _ _ _ => some b1
  | _ => none

def EData.byte2Prop : EData → Option Nat
  | .setTempo _ b2 _ _ _ => some b2
  | _ => none

def EData.byte3Prop : EData → Option Nat
  | .setTempo _ _ b3 _ _ => some b3
  | _ => none

def EData.hourByteProp : EData → Option Nat
  | .smpteOffset hb _ _ _ _ _ _ => some hb
  | _ => none

def EData.minuteProp : EData → Option Nat
  | .smpteOffset _ _ m _ _ _ _ => some m
  | _ => none

def EData.secondProp : EData → Option Nat
  | .smpteOffset _ _ _ s _ _ _ => some s
  | _ => none

def EData.frameProp : EData → Option Nat
  | .smpteOffset _ _ _ _ f _ _ => some f
  | _ => none

def EData.subFrameProp : EData → Option Nat
  | .smpteOffset _ _ _ _ _ sf _ => some sf
  | _ => none

def EData.numeratorProp : EData → Option Nat
  | .timeSignature n _ _ _ => some n
  | _ => none

def EData.denominatorProp : EData → Option Nat
  | .timeSignature _ d _ _ => some d
  | _ => none

def EData.metronomeProp : EData → Option Nat
  | .timeSignature _ _ m _ => some m
  | _ => none

def EData.thirtySecondNotesProp : EData → Option Nat
  | .timeSignature _ _ _ t => some t
  | _ => none

def EData.keySignatureProp : EData → Option Nat
  | .keySignature k _ _ _ => some k
  | _ => none

def EData.majorOrMinorProp : EData → Option Nat
  | .keySignature _ m _ _ => some m
  | _ => none

/-- `data.songNumber` — no payload shape built by this codec carries it. -/
def EData.songNumberProp : EData → Option Nat
  | _ => none

/-- `data.programNumber` — the decoder stores Program Change payloads as a
bare number, so the property is never present. -/
def EData.programNumberProp : EData → Option Nat
  | _ => none

/-- `data.pressureAmount` — likewise never present. -/
def EData.pressureAmountProp : EData → Option Nat
  | _ => none

/-- Falsiness of a possibly-absent number (`undefined`, `0` and `NaN` are
falsy). -/
def optNatFalsy : Option Nat → Bool
  | none => true
  | some n => n = 0

/-- The payload as `writeEventData`'s argument for the `writeEventData(dataBuffer, data)`
call sites (meta text, sequencer-specific, SysEx data array). -/
def EData.asPayload : EData → WPayload
  | .str s => .strPayload s
  | .bytes bs => .uint8array bs
  | _ => .other

/-- A data value written with `dataBuffer.writeUInt8(data)` (Channel Prefix /
MIDI Port): a non-numeric object coerces to `NaN`, storing 0. -/
def EData.asByte : EData → Nat
  | .num n => n
  | _ => 0

/-- The `statusByte` computation at the top of `writeEvent`: with a channel,
the type nibble is merged with the channel nibble; otherwise the raw type. -/
def statusByteOf (e : MEvent) : Option Nat :=
  match e.channel with
  | some ch => some ((e.type.getD 0) ||| (ch &&& 0x0F))
  | none => e.type

/-- The meta-event sub-`switch` of `writeEvent`, entered with the meta type
byte and declared meta length already written into `db`. -/
def writeMetaEvent (db : DataBuf) (e : MEvent) : Except String DataBuf :=
  if e.metaType = some 0x00 then
    if optNatFalsy e.data.sequenceNumberProp then .error "Invalid sequenceNumber"
    else
      let sn := e.data.sequenceNumberProp.getD 0
      writeEventData db (.arr [some (JsVal.num (sn >>> 8)), some (JsVal.num (sn &&& 0xFF))])
  else if e.metaType = some 0x01 ∨ e.metaType = some 0x02 ∨ e.metaType = some 0x03 ∨
      e.metaType = some 0x04 ∨ e.metaType = some 0x05 ∨ e.metaType = some 0x06 ∨
      e.metaType = some 0x07 ∨ e.metaType = some 0x08 ∨ e.metaType = some 0x09 then
    if e.data.falsy then .error "Invalid text data"
    else writeEventData db e.data.asPayload
  else if e.metaType = some 0x20 ∨ e.metaType = some 0x21 then
    if e.data.falsy then .error "Invalid data"
    else .ok (db.writeUInt8 e.data.asByte)
  else if e.metaType = some 0x2F then .ok db
  else if e.metaType = some 0x51 then
    if e.data.falsy then .error "Invalid data"
    else
      writeEventData db (.arr [e.data.byte1Prop.map JsVal.num,
        e.data.byte2Prop.map JsVal.num, e.data.byte3Prop.map JsVal.num])
  else if e.metaType = some 0x54 then
    if e.data.falsy then .error "Invalid data"
    else
      writeEventData db (.arr [e.data.hourByteProp.map JsVal.num,
        e.data.minuteProp.map JsVal.num, e.data.secondProp.map JsVal.num,
        e.data.frameProp.map JsVal.num, e.data.subFrameProp.map JsVal.num])
  else if e.metaType = some 0x58 then
    if optNatFalsy e.data.numeratorProp ∨ optNatFalsy e.data.denominatorProp ∨
        optNatFalsy e.data.metronomeProp ∨ optNatFalsy e.data.thirtySecondNotesProp then
      .error "Invalid numerator or denominator or metronome or thirtySecondNotes"
    else
      writeEventData db (.arr [e.data.numeratorProp.map JsVal.num,
        e.data.denominatorProp.map JsVal.num, e.data.metronomeProp.map JsVal.num,
        e.data.thirtySecondNotesProp.map JsVal.num])
  else if e.metaType = some 0x59 then
    if optNatFalsy e.data.keySignatureProp ∨ optNatFalsy e.data.majorOrMinorProp then
      .error "Invalid keySignature or majorOrMinor"
    else
      writeEventData db (.arr [e.data.keySignatureProp.map JsVal.num,
        e.data.majorOrMinorProp.map JsVal.num])
  else if e.metaType = some 0x7F then
    if e.data.falsy then .error "Invalid data"
    else writeEventData db e.data.asPayload
  else .ok db

/-- The event-type `switch` of `writeEvent` (strict-equality dispatch as an
if-chain), entered with delta time and status byte already written. -/
def writeEventDispatch (db : DataBuf) (e : MEvent) : Except String DataBuf :=
  if e.type = some 0x80 ∨ e.type = some 0x90 ∨ e.type = some 0xA0 then
    if ¬ e.data.isObject ∨ e.data.noteProp = none then .error "Invalid note value"
    else if e.data.velocityProp = none then .error "Invalid velocity / pressure value"
    else
      writeEventData db (.arr [e.data.noteVal, e.data.velocityProp.map JsVal.num])
  else if e.type = some 0xB0 then
    if optNatFalsy e.data.controllerNumberProp ∨ optNatFalsy e.data.valueProp then
      .error "Invalid controller number or value"
    else
      writeEventData db (.arr [e.data.controllerNumberProp.map JsVal.num,
        e.data.valueProp.map JsVal.num])
  else if e.type = some 0xC0 then
    if optNatFalsy e.data.programNumberProp then .error "Invalid programNumber"
    else writeEventData db (.arr [e.data.programNumberProp.map JsVal.num])
  else if e.type = some 0xD0 then
    if optNatFalsy e.data.pressureAmountProp then .error "Invalid pressureAmount"
    else writeEventData db (.arr [e.data.pressureAmountProp.map JsVal.num])
  else if e.type = some 0xE0 then
    if optNatFalsy e.data.lsbProp ∨ optNatFalsy e.data.msbProp then
      .error "Invalid lsb or msb"
    else
      writeEventData db (.arr [e.data.lsbProp.map JsVal.num, e.data.msbProp.map JsVal.num])
  else if e.type = some 0xF0 then
    if ¬ e.data.isObject ∨ optNatFalsy e.data.manufacturerIdProp ∨
        e.data.sysExDataProp = none then
      .error "Invalid manufacturerId or data"
    else do
      let db := db.writeUInt8 (e.data.manufacturerIdProp.getD 0)
      let db ← writeEventData db (.arr ((e.data.sysExDataProp.getD []).map
        (fun b => some (JsVal.num b))))
      pure (db.writeUInt8 0xF7)
  else if e.type = some 0xF3 then
    if optNatFalsy e.data.songNumberProp then .error "Invalid songNumber"
    else writeEventData db (.arr [e.data.songNumberProp.map JsVal.num])
  else if e.type = some 0xF6 ∨ e.type = some 0xF7 ∨ e.type = some 0xF8 ∨
      e.type = some 0xFA ∨ e.type = some 0xFB ∨ e.type = some 0xFC ∨
      e.type = some 0xFE then .ok db
  else if e.type = some 0xFF then
    writeMetaEvent ((db.writeUInt8 (e.metaType.getD 0)).writeBytes
      (writeVariableLengthValue (e.metaEventLength.getD 0))) e
  else .ok db

/-- `AudioMIDI.writeEvent`.  The `deltaTime === undefined` guard of the source
cannot fire in this model because every modelled event carries a delta time. -/
def writeEvent (db : DataBuf) (e : MEvent) : Except String DataBuf :=
  if statusByteOf e = none ∨ statusByteOf e = some 0 then
    .error "Invalid status byte"
  else
    writeEventDispatch
      ((db.writeBytes (writeVariableLengthValue e.deltaTime)).writeUInt8
        ((statusByteOf e).getD 0)) e

/-- `AudioMIDI.writeChunk` (also updates `chunk.chunkLength`, returned as the
second component). -/
def writeChunk (db : DataBuf) (chunk : MTrack) : Except String (DataBuf × MTrack) :=
  if chunk.type = "MTrk" then do
    let db := db.writeString "MTrk"
    let chunkLengthPosition := db.offset
    let db := db.writeUInt32 0
    let startPosition := db.offset
    let db ← chunk.events.foldlM writeEvent db
    let endPosition := db.offset
    let chunkLength := endPosition - startPosition
    let db := (db.seek chunkLengthPosition).writeUInt32 chunkLength
    let db := db.seek endPosition
    pure (db, { chunk with chunkLength := chunkLength })
  else .ok (db, chunk)

/-- `AudioMIDI.saveToDataBuffer` (`commit` finalizes the buffer without
changing its bytes; the mutated chunk list is the second component). -/
def saveToDataBuffer (m : AMIDI) : Except String (DataBuf × List MTrack) :=
  let db : DataBuf := ⟨[], 0⟩
  let db := db.writeString "MThd"
  let db := db.writeUInt32 6
  let db := db.writeUInt16 m.format
  let db := db.writeUInt16 m.trackCount
  let db := db.writeUInt16 (m.timeDivision.getD 0)
  m.chunks.foldlM
    (fun acc ch => do
      let (db1, ch1) ← writeChunk acc.1 ch
      pure (db1, acc.2 ++ [ch1]))
    (db, ([] : List MTrack))

/-- The 14 bytes the six header write calls of `saveToDataBuffer` produce:
`"MThd"`, length 6, then the stored `format`, `trackCount` and
`timeDivision` as big-endian 16-bit values. -/
def mthd14 (m : AMIDI) : List Nat :=
  [0x4D, 0x54, 0x68, 0x64, 0, 0, 0, 6,
   (m.format >>> 8) % 256, m.format % 256,
   (m.trackCount >>> 8) % 256, m.trackCount % 256,
   (m.timeDivision.getD 0 >>> 8) % 256, m.timeDivision.getD 0 % 256]

/-- The buffer `db'` extends `db`: the write cursor sits at the end and the
old bytes are a preserved prefix (the back-patched chunk lengths always lie
beyond the bytes already present when a chunk write starts). -/
def BufExtends (db db' : DataBuf) : Prop :=
  db'.offset = db'.data.length ∧ db.data.length ≤ db'.data.length ∧
    db'.data.take db.data.length = db.data

/-!
## Concrete byte streams used by the claims
-/

/-- A well-formed format-0 file: `MThd` declaring two tracks, then two `MTrk`
chunks, each holding a single End-of-Track meta event. -/
def twoTrackFile : List Nat :=
  [0x4D, 0x54, 0x68, 0x64, 0, 0, 0, 6, 0, 0, 0, 2, 0x01, 0xE0,
   0x4D, 0x54, 0x72, 0x6B, 0, 0, 0, 4, 0x00, 0xFF, 0x2F, 0x00,
   0x4D, 0x54, 0x72, 0x6B, 0, 0, 0, 4, 0x00, 0xFF, 0x2F, 0x00]

/-- The running-status file of the spec: one track whose body is
`00 90 3C 40 00 3E 40 00 40 40`. -/
def runningStatusFile : List Nat :=
  [0x4D, 0x54, 0x68, 0x64, 0, 0, 0, 6, 0, 0, 0, 1, 0x01, 0xE0,
   0x4D, 0x54, 0x72, 0x6B, 0, 0, 0, 10,
   0x00, 0x90, 0x3C, 0x40, 0x00, 0x3E, 0x40, 0x00, 0x40, 0x40]

/-- One track: NoteOn(60, vel 100) at delta 0, then NoteOn(60, vel 0) at
delta 240 (`81 70`). -/
def zeroVelocityFile : List Nat :=
  [0x4D, 0x54, 0x68, 0x64, 0, 0, 0, 6, 0, 0, 0, 1, 0x01, 0xE0,
   0x4D, 0x54, 0x72, 0x6B, 0, 0, 0, 9,
   0x00, 0x90, 0x3C, 0x64, 0x81, 0x70, 0x90, 0x3C, 0x00]

/-- One track: NoteOn(60, vel 100) at delta 0, then NoteOff(60) at delta 240
(spec scenario 5). -/
def notePairFile : List Nat :=
  [0x4D, 0x54, 0x68, 0x64, 0, 0, 0, 6, 0, 0, 0, 1, 0x01, 0xE0,
   0x4D, 0x54, 0x72, 0x6B, 0, 0, 0, 9,
   0x00, 0x90, 0x3C, 0x64, 0x81, 0x70, 0x80, 0x3C, 0x00]

/-- One track holding a single NoteOff(60) with no preceding NoteOn. -/
def noteOffOnlyFile : List Nat :=
  [0x4D, 0x54, 0x68, 0x64, 0, 0, 0, 6, 0, 0, 0, 1, 0x01, 0xE0,
   0x4D, 0x54, 0x72, 0x6B, 0, 0, 0, 4, 0x00, 0x80, 0x3C, 0x00]

/-- An `MThd` chunk declaring length 7 (one excess byte, `0x00`), followed by
a well-formed `MTrk` chunk with a single End-of-Track event. -/
def oversizedHeaderFile : List Nat :=
  [0x4D, 0x54, 0x68, 0x64, 0, 0, 0, 7, 0, 0, 0, 1, 0x01, 0xE0, 0x00,
   0x4D, 0x54, 0x72, 0x6B, 0, 0, 0, 4, 0x00, 0xFF, 0x2F, 0x00]

/-- An `MThd` declaring one track, followed by a chunk whose type is `XXXX`:
`parse` stops on the bad track header, leaving `chunks` empty while
`trackCount` stays 1. -/
def badTrackHeaderFile : List Nat :=
  [0x4D, 0x54, 0x68, 0x64, 0, 0, 0, 6, 0, 0, 0, 1, 0x01, 0xE0,
   0x58, 0x58, 0x58, 0x58, 0, 0, 0, 0]

/-!
## Spec-side counting functions (claim C8)

These follow the spec's words ("the number of Note-On events with velocity
> 0", "the number of Note-Off events", "the sum over the validator's leftover
activeNotes counts") rather than any single source function.
-/

/-- Spec: the number of Note-On events with velocity greater than 0. -/
def specNoteOnVelPosCount (events : List MEvent) : Nat :=
  events.countP (fun e =>
    match e.data with
    | .noteOn _ v _ => decide (0 < v)
    | _ => false)

/-- Spec: the number of Note-Off events. -/
def specNoteOffCount (events : List MEvent) : Nat :=
  events.countP (fun e =>
    match e.data with
    | .noteOff _ _ _ => true
    | _ => false)

/-- The validator state after folding one track's events. -/
def validatorFold (events : List MEvent) : VState :=
  validateEventsAux 0 0 ⟨[], [], false⟩ events

/-- The total unmatched-Note-On count the validator reports for a track: the
sum over its leftover `activeNotes` counts (entries decremented back to zero
contribute nothing). -/
def unmatchedNoteOnTotal (events : List MEvent) : Nat :=
  (((validatorFold events).activeNotes.filter (fun p => 0 < p.2)).map (fun p => p.2)).sum

/-!
### The validator's note-balance accounting

`validateEvent` increments a per-note counter on a `0x90` with positive
velocity, and decrements it on a `0x80` or a zero-velocity `0x90` — but only
when the counter is positive; a decrement attempt at zero pushes a
"was not active" issue and leaves the map alone.  The following definitions
name the four event classes and re-run just the map evolution to count the
failed decrements.
-/

/-- Sum of the per-note counters of a validator `activeNotes` map. -/
def sumValues (m : List (Option Int × Nat)) : Nat := (m.map (fun p => p.2)).sum

/-- A Note-On the validator counts: status `0x90`, data with `note` and
`velocity` present, velocity strictly positive. -/
def isOnInc (e : MEvent) : Bool :=
  decide (e.type = some 0x90 ∧
    ¬(e.data.falsy = true ∨ e.data.noteProp = none ∨ e.data.velocityProp = none) ∧
    0 < e.data.velocityProp.getD 0)

/-- A `0x80` Note-Off the validator attempts to match (data and `note`
present). -/
def isOffAttempt (e : MEvent) : Bool :=
  decide (e.type = some 0x80 ∧ ¬(e.data.falsy = true ∨ e.data.noteProp = none))

/-- A zero-velocity `0x90` the validator treats as a Note-Off attempt. -/
def isZeroOnAttempt (e : MEvent) : Bool :=
  decide (e.type = some 0x90 ∧
    ¬(e.data.falsy = true ∨ e.data.noteProp = none ∨ e.data.velocityProp = none) ∧
    ¬0 < e.data.velocityProp.getD 0)

/-- The `activeNotes` evolution of one `validateEvent` step, with the issue
bookkeeping stripped away. -/
def vActiveStep (m : List (Option Int × Nat)) (e : MEvent) : List (Option Int × Nat) :=
  if e.type = some 0x90 then
    if e.data.falsy ∨ e.data.noteProp = none ∨ e.data.velocityProp = none then m
    else
      let k := e.data.noteProp.bind noteNumberOf
      if 0 < e.data.velocityProp.getD 0 then mapSet m k ((mapGet m k).getD 0 + 1)
      else if (mapGet m k).getD 0 ≤ 0 then m
      else mapSet m k ((mapGet m k).getD 0 - 1)
  else if e.type = some 0x80 then
    if e.data.falsy ∨ e.data.noteProp = none then m
    else
      let k := e.data.noteProp.bind noteNumberOf
      if (mapGet m k).getD 0 ≤ 0 then m
      else mapSet m k ((mapGet m k).getD 0 - 1)
  else m

/-- The number of Note-Off attempts in a list of events that fail because the
counter for that note is already zero: the same map evolution as
`validateEvent`, counting the "was not active" pushes. -/
def decFailCount (m : List (Option Int × Nat)) : List MEvent → Nat
  | [] => 0
  | e :: rest =>
    if e.type = some 0x90 then
      if e.data.falsy ∨ e.data.noteProp = none ∨ e.data.velocityProp = none then
        decFailCount m rest
      else
        let k := e.data.noteProp.bind noteNumberOf
        if 0 < e.data.velocityProp.getD 0 then
          decFailCount (mapSet m k ((mapGet m k).getD 0 + 1)) rest
        else if (mapGet m k).getD 0 ≤ 0 then 1 + decFailCount m rest
        else decFailCount (mapSet m k ((mapGet m k).getD 0 - 1)) rest
    else if e.type = some 0x80 then
      if e.data.falsy ∨ e.data.noteProp = none then decFailCount m rest
      else
        let k := e.data.noteProp.bind noteNumberOf
        if (mapGet m k).getD 0 ≤ 0 then 1 + decFailCount m rest
        else decFailCount (mapSet m k ((mapGet m k).getD 0 - 1)) rest
    else decFailCount m rest

/-!
## Claim theorems
-/

set_option maxRecDepth 100000

theorem usedNoteFilter_eq_false (t : Option Nat) : usedNoteFilter t = false := by
  cases t with
  | none => rfl
  | some n =>
    simp only [usedNoteFilter, decide_eq_false_iff_not]
    intro h
    have h10 : ((10 * n : ℕ) : ℚ) = 9 := by push_cast; linarith
    have h9 : (10 * n : ℕ) = 9 := by exact_mod_cast h10
    omega

theorem collectUsedNotes_eq_nil (cs : List MTrack) : collectUsedNotes cs = [] := by
  unfold collectUsedNotes
  have hstep : ∀ (acc : List Int) (track : MTrack),
      ((track.events.filter (fun e => usedNoteFilter e.type)).foldl
        (fun acc e =>
          if e.data.isObject ∧ e.data.velocityProp ≠ none ∧ 0 < e.data.velocityProp.getD 0 then
            match e.data.noteProp.bind noteNumberOf with
            | some noteNumber => setAdd acc noteNumber
            | none => acc
          else acc)
        acc) = acc := by
    intro acc track
    have hf : track.events.filter (fun e => usedNoteFilter e.type) = [] := by
      simp [List.filter_eq_nil_iff, usedNoteFilter_eq_false]
    rw [hf]
    rfl
  induction cs with
  | nil => rfl
  | cons t rest ih =>
    simpa [List.foldl_cons, hstep] using ih

/-- C2: refuted — `getUsedNotes` filters events with `event?.type === 0.90`,
comparing the integer event type against the numeric literal 0.90 instead of
the status byte 0x90, so it returns the empty array for *every* instance; in
particular it is empty for the parsed running-status file, which contains
three Note-On events of velocity 0x40 > 0.  (The claim promises the distinct
velocity-positive Note-On numbers, non-empty for such a file.) -/
theorem C2_getUsedNotes_always_empty :
    (∀ cs : List MTrack, getUsedNotes cs = .ok []) ∧
    (parse runningStatusFile).map (fun r =>
      r.chunks.map (fun t => specNoteOnVelPosCount t.events)) = some [3] := by
  constructor
  · intro cs
    unfold getUsedNotes
    rw [collectUsedNotes_eq_nil]
    rfl
  · decide

set_option maxHeartbeats 2000000 in
/-- C4: the running-status track `00 90 3C 40 00 3E 40 00 40 40` decodes to
exactly three Note-On events on channel 0 with notes 60, 62, 64 and velocity
0x40 each (the second and third events reuse the recorded status byte after a
one-byte rewind). -/
theorem C4_running_status :
    (parse runningStatusFile).map (fun r => r.chunks.map (fun t => t.events.map
        (fun e => (e.label, e.type)))) =
      some [[(some "Note On", some 0x90), (some "Note On", some 0x90),
             (some "Note On", some 0x90)]] ∧
    (parse runningStatusFile).map (fun r => r.chunks.map (fun t => t.events.map
        (fun e => (e.channel, e.data)))) =
      some [[(some 0, .noteOn 60 64 none), (some 0, .noteOn 62 64 none),
             (some 0, .noteOn 64 64 none)]] := by
  exact ⟨by decide, by decide⟩

/-- C1: refuted by the code — the per-track event loop runs
`while (remainingBytes() > 0)` and never stops at End-of-Track, so for this
well-formed two-track file the first track's loop consumes the second `MTrk`
header as event bytes (mis-decoding it as an SMPTE-offset meta event under the
running meta status) and `parse` returns one chunk of three events instead of
two chunks of one event each. -/
theorem C1_second_track_consumed :
    (parse twoTrackFile).map (fun r =>
      (r.trackCount, r.chunks.length, r.chunks.map (fun t => t.events.map (fun e => e.label)))) =
      some (2, 1, [[some "End of Track", some "SMPTE Offset", some "End of Track"]]) := by
  decide

/-- C5: refuted as stated — at emission a decoded Note On carries *no*
`length` field (`none`), not 0, and a later zero-velocity Note On for the
same note does not back-patch it: after NoteOn(60, vel 100) at tick 0 and
NoteOn(60, vel 0) at tick 240, the first event's length is still absent
(neither 0 nor 240). -/
theorem C5_counterexample :
    (parse zeroVelocityFile).map (fun r => r.chunks.map (fun t => t.events.map (fun e => e.data))) =
      some [[.noteOn 60 100 none, .noteOn 60 0 none]] := by decide

/-- C7: refuted — `parse` reads exactly 14 header bytes and does not skip the
excess declared by an oversized `MThd` length: with declared length 7 the
excess byte is read as the start of the next chunk header, the `MTrk` test
fails, and no tracks are decoded (the claim says the following `MTrk` is
still decoded correctly). -/
theorem C7_counterexample :
    (parse oversizedHeaderFile).map (fun r => (r.trackCount, r.chunks.length)) =
      some (1, 0) := by decide

/-- C8: refuted as stated — for the parsed file whose only track holds a
single Note-Off, the number of velocity-positive Note-Ons (0) differs from
the number of Note-Offs (1) plus the validator's leftover unmatched total
(0): the failed decrement is reported as an issue, not subtracted. -/
theorem C8_counterexample :
    (parse noteOffOnlyFile).map (fun r => r.chunks.map (fun t =>
      decide (specNoteOnVelPosCount t.events =
        specNoteOffCount t.events + unmatchedNoteOnTotal t.events))) = some [false] := by
  decide

/-!
### VLQ lemmas (claim C3)
-/

/-- Nat-level view of the group-collecting loop (for nonnegative inputs). -/
def natGroups (n : Nat) : List Nat :=
  n % 128 :: (if 0 < n / 128 then natGroups (n / 128) else [])
termination_by n
decreasing_by
  rename_i hpos
  omega

/-- Nat-level view of the emission loop. -/
def emitN : List Nat → List Nat
  | [] => []
  | [g] => [g]
  | g :: rest => (g ||| 128) :: emitN rest

theorem lor128_eq (b : Nat) (h : b < 128) : b ||| 128 = 128 + b := by
  revert h
  revert b
  decide

theorem emitVLV_map_cast (l : List Nat) : emitVLV (l.map (fun d : Nat => (d : Int))) = emitN l := by
  induction l with
  | nil => rfl
  | cons g rest ih =>
    cases rest with
    | nil =>
      show [(g : Int).toNat] = [g]
      rw [Int.toNat_natCast]
    | cons g2 r2 =>
      have h1 : emitVLV ((g :: g2 :: r2).map (fun d : Nat => (d : Int))) =
          ((g : Int).toNat ||| 128) :: emitVLV ((g2 :: r2).map (fun d : Nat => (d : Int))) := rfl
      rw [h1, ih, Int.toNat_natCast]
      rfl

theorem emitN_length (l : List Nat) : (emitN l).length = l.length := by
  induction l with
  | nil => rfl
  | cons g rest ih =>
    cases rest with
    | nil => rfl
    | cons g2 r2 => simp only [emitN, List.length_cons] at ih ⊢; omega

theorem vlvGroupsAux_nat (fuel : Nat) :
    ∀ n : Nat, n < fuel → vlvGroupsAux fuel (n : Int) = (natGroups n).map (fun d : Nat => (d : Int)) := by
  induction fuel with
  | zero => intro n h; omega
  | succ f ih =>
    intro n h
    rw [natGroups]
    simp only [vlvGroupsAux, List.map_cons]
    have hdiv : Int.fdiv (n : Int) 128 = ((n / 128 : Nat) : Int) := by
      rw [Int.fdiv_eq_ediv _ (by norm_num)]
      omega
    have hmod : (n : Int) % 128 = ((n % 128 : Nat) : Int) := by omega
    rw [hdiv, hmod]
    by_cases hpos : 0 < n / 128
    · have hlt : (0 : Int) < ((n / 128 : Nat) : Int) := by exact_mod_cast hpos
      rw [if_pos hlt, if_pos hpos, ih (n / 128) (by omega)]
    · have hle : ¬ (0 : Int) < ((n / 128 : Nat) : Int) := by
        simp only [not_lt]
        exact_mod_cast Nat.le_of_not_lt hpos
      rw [if_neg hle, if_neg hpos]
      rfl

theorem writeVLV_nat (n : Nat) (h : n < 2 ^ 31) :
    writeVariableLengthValue (n : Int) = emitN (natGroups n).reverse := by
  unfold writeVariableLengthValue vlvGroups
  rw [toInt32_of_small _ (by positivity) (by exact_mod_cast h), Int.toNat_natCast,
    vlvGroupsAux_nat (n + 1) n (by omega), ← List.map_reverse, emitVLV_map_cast]

theorem natGroups_ne_nil (n : Nat) : natGroups n ≠ [] := by
  rw [natGroups]
  simp

theorem natGroups_lt_128 (n : Nat) : ∀ b ∈ natGroups n, b < 128 := by
  induction n using Nat.strong_induction_on with
  | _ n ih =>
    rw [natGroups]
    intro b hb
    rcases List.mem_cons.mp hb with h | h
    · omega
    · by_cases hpos : 0 < n / 128
      · rw [if_pos hpos] at h
        exact ih (n / 128) (by omega) b h
      · rw [if_neg hpos] at h
        simp at h

/-- The value represented by a most-significant-first group list, folded onto
an accumulator the way the read loop does. -/
theorem natGroups_foldl (n : Nat) : ∀ acc : Nat,
    ((natGroups n).reverse.foldl (fun a d => a * 128 + d) acc) =
      acc * 128 ^ (natGroups n).length + n := by
  induction n using Nat.strong_induction_on with
  | _ n ih =>
    intro acc
    rw [natGroups]
    by_cases hpos : 0 < n / 128
    · rw [if_pos hpos]
      simp only [List.reverse_cons, List.foldl_append, List.length_cons]
      rw [ih (n / 128) (by omega) acc]
      simp only [List.foldl_cons, List.foldl_nil]
      have hdm : n / 128 * 128 + n % 128 = n := by omega
      rw [pow_succ]
      ring_nf
      linarith
    · rw [if_neg hpos]
      simp only [List.reverse_cons, List.reverse_nil, List.nil_append, List.foldl_cons,
        List.foldl_nil, List.length_cons, List.length_nil]
      have : n % 128 = n := by omega
      rw [this, pow_one]

theorem natGroups_lt_pow (n : Nat) : n < 128 ^ (natGroups n).length := by
  induction n using Nat.strong_induction_on with
  | _ n ih =>
    rw [natGroups]
    by_cases hpos : 0 < n / 128
    · rw [if_pos hpos]
      simp only [List.length_cons]
      have := ih (n / 128) (by omega)
      rw [pow_succ]
      have h128 : n ≤ 128 * (n / 128) + 127 := by omega
      calc n ≤ 128 * (n / 128) + 127 := h128
        _ < 128 * 128 ^ (natGroups (n / 128)).length := by omega
        _ = 128 ^ (natGroups (n / 128)).length * 128 := by ring
    · rw [if_neg hpos]
      simp only [List.length_cons, List.length_nil, pow_one]
      omega

theorem natGroups_minimal (n : Nat) :
    (natGroups n).length = 1 ∨ 128 ^ ((natGroups n).length - 1) ≤ n := by
  induction n using Nat.strong_induction_on with
  | _ n ih =>
    rw [natGroups]
    by_cases hpos : 0 < n / 128
    · rw [if_pos hpos]
      right
      simp only [List.length_cons, Nat.add_sub_cancel]
      rcases ih (n / 128) (by omega) with h1 | h2
      · rw [h1, pow_one]
        omega
      · have hlen : 1 ≤ (natGroups (n / 128)).length := by
          cases hg : natGroups (n / 128) with
          | nil => exact absurd hg (natGroups_ne_nil _)
          | cons a l => simp
        calc 128 ^ (natGroups (n / 128)).length
            = 128 ^ ((natGroups (n / 128)).length - 1) * 128 := by
              rw [← pow_succ]
              congr 1
              omega
          _ ≤ (n / 128) * 128 := by
              have := h2
              exact Nat.mul_le_mul_right 128 h2
          _ ≤ n := by omega
    · rw [if_neg hpos]
      left
      rfl

theorem natGroups_len_le_4 (n : Nat) (h : n < 2 ^ 28) : (natGroups n).length ≤ 4 := by
  rcases natGroups_minimal n with h1 | h2
  · omega
  · by_contra hgt
    have h5 : 5 ≤ (natGroups n).length := by omega
    have : (128 : Nat) ^ 4 ≤ 128 ^ ((natGroups n).length - 1) :=
      Nat.pow_le_pow_right (by norm_num) (by omega)
    have : (128 : Nat) ^ 4 ≤ n := le_trans this h2
    norm_num at this
    omega

theorem emitN_dropLast_ge (msb : List Nat) (hlt : ∀ b ∈ msb, b < 128) :
    ∀ b ∈ (emitN msb).dropLast, 128 ≤ b := by
  induction msb with
  | nil => intro b hb; simp [emitN] at hb
  | cons g rest ih =>
    intro b hb
    cases rest with
    | nil => simp [emitN] at hb
    | cons g2 r2 =>
      have hne : emitN (g2 :: r2) ≠ [] := by
        have := emitN_length (g2 :: r2)
        intro hx
        rw [hx] at this
        simp at this
      rw [show emitN (g :: g2 :: r2) = (g ||| 128) :: emitN (g2 :: r2) from rfl,
        List.dropLast_cons_of_ne_nil hne] at hb
      rcases List.mem_cons.mp hb with h | h
      · subst h
        have hg : g < 128 := hlt g (by simp)
        rw [lor128_eq g hg]
        omega
      · exact ih (fun x hx => hlt x (by simp [hx])) b h

theorem emitN_getLast_lt (msb : List Nat) (hlt : ∀ b ∈ msb, b < 128) :
    ∀ b, (emitN msb).getLast? = some b → b < 128 := by
  induction msb with
  | nil => intro b hb; simp [emitN] at hb
  | cons g rest ih =>
    intro b hb
    cases rest with
    | nil =>
      simp only [emitN, List.getLast?_singleton, Option.some.injEq] at hb
      have hg : g < 128 := hlt g (by simp)
      omega
    | cons g2 r2 =>
      rw [show emitN (g :: g2 :: r2) = (g ||| 128) :: emitN (g2 :: r2) from rfl] at hb
      cases hr : emitN (g2 :: r2) with
      | nil =>
        have := emitN_length (g2 :: r2)
        rw [hr] at this
        simp at this
      | cons x xs =>
        rw [hr, List.getLast?_cons_cons] at hb
        rw [← hr] at hb
        exact ih (fun y hy => hlt y (by simp [hy])) b hb

theorem foldl_int_of_nat (l : List Nat) : ∀ a : Nat,
    l.foldl (fun (x : Int) (d : Nat) => x * 128 + (d : Int)) (a : Int) =
      ((l.foldl (fun x d => x * 128 + d) a : Nat) : Int) := by
  induction l with
  | nil => intro a; rfl
  | cons d rest ih =>
    intro a
    simp only [List.foldl_cons]
    rw [show ((a : Int) * 128 + (d : Int)) = ((a * 128 + d : Nat) : Int) by push_cast; ring]
    exact ih (a * 128 + d)

theorem getElem?_of_drop_cons {α : Type} (l : List α) (pos : Nat) (x : α) (xs : List α)
    (h : l.drop pos = x :: xs) : l[pos]? = some x := by
  have h0 : (l.drop pos)[0]? = l[pos + 0]? := List.getElem?_drop l pos 0
  rw [h] at h0
  simpa using h0.symm

/-- The read loop consumes exactly an emitted most-significant-first group
list, accumulating its value. -/
theorem readVLVaux_emitN (msb : List Nat) :
    ∀ (acc : Int) (full : List Nat) (pos fuel : Nat),
      (∀ b ∈ msb, b < 128) → msb ≠ [] →
      full.drop pos = emitN msb →
      0 ≤ acc → (acc + 1) * 128 ^ msb.length ≤ 2 ^ 31 →
      msb.length ≤ fuel →
      readVLVaux fuel ⟨full, pos⟩ acc =
        some (msb.foldl (fun (a : Int) (d : Nat) => a * 128 + (d : Int)) acc,
          ⟨full, full.length⟩) := by
  induction msb with
  | nil => intro acc full pos fuel hlt hne; exact absurd rfl hne
  | cons d rest ih =>
    intro acc full pos fuel hlt hne hdrop hacc hbound hfuel
    have hfuel1 : 1 ≤ fuel := le_trans (by simp) hfuel
    obtain ⟨f, rfl⟩ : ∃ f, fuel = f + 1 := ⟨fuel - 1, by omega⟩
    have hd : d < 128 := hlt d (by simp)
    have hdroplen : full.length - pos = rest.length + 1 := by
      have := congrArg List.length hdrop
      rw [List.length_drop, emitN_length] at this
      simpa using this
    have hposle : pos < full.length := by omega
    cases rest with
    | nil =>
      have hget : full[pos]? = some d :=
        getElem?_of_drop_cons full pos _ _ (by rw [hdrop]; rfl)
      have hacc128 : toInt32 (acc * 128) = acc * 128 := by
        apply toInt32_of_small
        · omega
        · simp only [List.length_cons, List.length_nil, pow_one] at hbound
          omega
      simp only [readVLVaux, Cursor.readUInt8, hget]
      have hmod : d % 256 = d := by omega
      rw [hmod]
      have hcond : ¬ (128 ≤ d ∧ 0 < Cursor.remainingBytes ⟨full, pos + 1⟩) := by
        simp only [Cursor.remainingBytes]
        omega
      rw [if_neg hcond]
      have hmod2 : d % 128 = d := by omega
      rw [hmod2, hacc128]
      have hposeq : pos + 1 = full.length := by
        simp only [List.length_nil] at hdroplen
        omega
      rw [hposeq]
      simp
    | cons d2 r2 =>
      have hEmit : emitN (d :: d2 :: r2) = (d ||| 128) :: emitN (d2 :: r2) := rfl
      have hget : full[pos]? = some (d ||| 128) :=
        getElem?_of_drop_cons full pos _ _ (by rw [hdrop, hEmit])
      have hlorv : d ||| 128 = 128 + d := lor128_eq d hd
      have hacc128 : toInt32 (acc * 128) = acc * 128 := by
        have hp : (128 : Int) ≤ 128 ^ (d :: d2 :: r2).length := by
          calc (128 : Int) = 128 ^ 1 := by norm_num
            _ ≤ 128 ^ (d :: d2 :: r2).length := by
                apply pow_le_pow_right₀ (by norm_num)
                simp
        have h1 : (acc + 1) * 128 ≤ (acc + 1) * 128 ^ (d :: d2 :: r2).length :=
          mul_le_mul_of_nonneg_left hp (by omega)
        apply toInt32_of_small
        · omega
        · linarith
      simp only [readVLVaux, Cursor.readUInt8, hget]
      have hmod : (d ||| 128) % 256 = 128 + d := by omega
      rw [hmod]
      have hcond : 128 ≤ 128 + d ∧ 0 < Cursor.remainingBytes ⟨full, pos + 1⟩ := by
        refine ⟨by omega, ?_⟩
        simp only [Cursor.remainingBytes]
        simp only [List.length_cons] at hdroplen
        omega
      rw [if_pos hcond, hacc128]
      have hmod2 : (128 + d) % 128 = d := by omega
      rw [hmod2]
      have hdrop2 : full.drop (pos + 1) = emitN (d2 :: r2) := by
        have hdd : (full.drop pos).drop 1 = full.drop (pos + 1) := List.drop_drop 1 pos full
        rw [← hdd, hdrop]
        rfl
      have hdle : (d : Int) ≤ 127 := by exact_mod_cast Nat.le_of_lt_succ (by omega)
      have hbound2 : ((acc * 128 + (d : Nat)) + 1) * 128 ^ (d2 :: r2).length ≤ 2 ^ 31 := by
        have hstep : (acc * 128 + (d : Nat)) + 1 ≤ (acc + 1) * 128 := by
          push_cast
          omega
        calc ((acc * 128 + (d : Nat)) + 1) * 128 ^ (d2 :: r2).length
            ≤ ((acc + 1) * 128) * 128 ^ (d2 :: r2).length := by
              apply Int.mul_le_mul_of_nonneg_right hstep
              positivity
          _ = (acc + 1) * 128 ^ (d :: d2 :: r2).length := by
              simp only [List.length_cons]
              rw [pow_succ]
              ring
          _ ≤ 2 ^ 31 := hbound
      rw [ih (acc * 128 + (d : Nat)) full (pos + 1) f
        (fun b hb => hlt b (by simp [hb])) (by simp) hdrop2 (by positivity) hbound2
        (by simp only [List.length_cons] at hfuel ⊢; omega)]
      rfl

/-- C3: for every `n` in `[0, 2^28)`, reading back the bytes of
`writeVariableLengthValue n` with `readVariableLengthValues` yields `n` and
consumes exactly those bytes; the encoding has the minimum possible number of
7-bit groups (its length `L` satisfies `n < 128^L` and, unless `L = 1`,
`128^(L-1) ≤ n`); `n = 0` encodes as the single zero byte; and for `n > 0`
every byte except the last has the high bit set while the last has it
clear. -/
theorem C3_vlq_roundtrip_minimal (n : Nat) (h : n < 2 ^ 28) :
    readVariableLengthValues ⟨writeVariableLengthValue (n : Int), 0⟩ =
      some ((n : Int),
        ⟨writeVariableLengthValue (n : Int), (writeVariableLengthValue (n : Int)).length⟩) ∧
    n < 128 ^ (writeVariableLengthValue (n : Int)).length ∧
    ((writeVariableLengthValue (n : Int)).length = 1 ∨
      128 ^ ((writeVariableLengthValue (n : Int)).length - 1) ≤ n) ∧
    (n = 0 → writeVariableLengthValue (n : Int) = [0]) ∧
    (0 < n → (∀ b ∈ (writeVariableLengthValue (n : Int)).dropLast, 128 ≤ b) ∧
      (∀ b, (writeVariableLengthValue (n : Int)).getLast? = some b → b < 128)) := by
  have h31 : n < 2 ^ 31 := by omega
  have hw : writeVariableLengthValue (n : Int) = emitN (natGroups n).reverse := writeVLV_nat n h31
  have hlt : ∀ b ∈ (natGroups n).reverse, b < 128 :=
    fun b hb => natGroups_lt_128 n b (List.mem_reverse.mp hb)
  have hne : (natGroups n).reverse ≠ [] := by
    rw [ne_eq, List.reverse_eq_nil_iff]
    exact natGroups_ne_nil n
  have hlen4 : (natGroups n).length ≤ 4 := natGroups_len_le_4 n h
  have hwlen : (writeVariableLengthValue (n : Int)).length = (natGroups n).length := by
    rw [hw, emitN_length, List.length_reverse]
  refine ⟨?_, ?_, ?_, ?_, ?_⟩
  · rw [hw]
    unfold readVariableLengthValues
    have hfold : (natGroups n).reverse.foldl
        (fun (a : Int) (d : Nat) => a * 128 + (d : Int)) 0 = (n : Int) := by
      have h1 := foldl_int_of_nat (natGroups n).reverse 0
      have h2 := natGroups_foldl n 0
      rw [show ((0 : Int)) = (((0 : Nat)) : Int) by simp, h1, h2]
      simp
    have hbound : ((0 : Int) + 1) * 128 ^ (natGroups n).reverse.length ≤ 2 ^ 31 := by
      rw [List.length_reverse, zero_add, one_mul]
      calc (128 : Int) ^ (natGroups n).length ≤ 128 ^ 4 :=
            pow_le_pow_right₀ (by norm_num) hlen4
        _ ≤ 2 ^ 31 := by norm_num
    rw [readVLVaux_emitN (natGroups n).reverse 0 (emitN (natGroups n).reverse) 0
        (Cursor.remainingBytes ⟨emitN (natGroups n).reverse, 0⟩ + 1) hlt hne
        (List.drop_zero _) le_rfl hbound
        (by simp [Cursor.remainingBytes, emitN_length])]
    rw [hfold]
  · rw [hwlen]
    exact natGroups_lt_pow n
  · rw [hwlen]
    exact natGroups_minimal n
  · intro h0
    subst h0
    decide
  · intro _
    rw [hw]
    exact ⟨emitN_dropLast_ge (natGroups n).reverse hlt, emitN_getLast_lt (natGroups n).reverse hlt⟩

/-- Witness for C3 at `n = 128` (which encodes as `81 00`). -/
theorem C3_witness :
    (128 : Nat) < 2 ^ 28 ∧
    readVariableLengthValues ⟨writeVariableLengthValue ((128 : Nat) : Int), 0⟩ =
      some (((128 : Nat) : Int), ⟨writeVariableLengthValue ((128 : Nat) : Int),
        (writeVariableLengthValue ((128 : Nat) : Int)).length⟩) ∧
    writeVariableLengthValue ((128 : Nat) : Int) = [0x81, 0x00] :=
  ⟨by decide, (C3_vlq_roundtrip_minimal 128 (by decide)).1, by decide⟩

def ccValueZeroEvent : MEvent :=
  { deltaTime := 0, type := some 0xB0, channel := some 0, data := .ccWrite 7 0 }

def ccValueOneEvent : MEvent :=
  { deltaTime := 0, type := some 0xB0, channel := some 0, data := .ccWrite 7 1 }

/-- C6: refuted by the code — `writeEvent` guards Control Change with
`!data.controllerNumber || !data.value`, and `0` is falsy in JavaScript, so a
Control Change whose (present) `value` is the legal 0 raises instead of
writing its two data bytes; with `value` 1 the same event writes
`deltaTime, status, controllerNumber, value`. -/
theorem C6_cc_value_zero_raises :
    writeEvent ⟨[], 0⟩ ccValueZeroEvent = .error "Invalid controller number or value" ∧
    (writeEvent ⟨[], 0⟩ ccValueOneEvent).map (fun db => db.data) =
      .ok [0x00, 0xB0, 0x07, 0x01] := by decide

/-- C9: for every MIDI value in [0, 127] the name round-trip
`noteToMidi (midiToNote v) = v` holds at the default octave offset 2, with
`noteToMidi "C4" = 72`; `midiToNote` raises on every integer outside
[0, 127], and `noteToMidi` raises on every note string whose computed MIDI
number falls outside [0, 127]. -/
theorem C9_note_roundtrip_and_range :
    (∀ v : Nat, v < 128 → (midiToNote (v : Int)).bind (fun s => noteToMidi s) = .ok (v : Int)) ∧
    noteToMidi "C4" = .ok 72 ∧
    (∀ v : Int, v < 0 ∨ 127 < v → ∃ msg, midiToNote v = .error msg) ∧
    (∀ s note octave, matchNoteString s = some (note, octave) →
      ((octave + 2) * 12 + ((defaultNoteMap note).getD 0 : Int) < 0 ∨
        127 < (octave + 2) * 12 + ((defaultNoteMap note).getD 0 : Int)) →
      ∃ msg, noteToMidi s = .error msg) := by
  refine ⟨by decide, by decide, ?_, ?_⟩
  · intro v h
    refine ⟨"Invalid MIDI value: " ++ toString v ++ ". Must be between 0 and 127.", ?_⟩
    unfold midiToNote
    rw [if_pos h]
  · intro s note octave hm hout
    refine ⟨"Note out of valid MIDI range: " ++ s, ?_⟩
    unfold noteToMidi
    rw [hm]
    simp only []
    rw [if_pos hout]

/-- Witness for C9 at concrete inputs: the round trip at 60, the rejection of
128, and the rejection of `C9` (whose computed number is 132). -/
theorem C9_witness :
    ((midiToNote (60 : Int)).bind (fun s => noteToMidi s) = .ok (60 : Int)) ∧
    (∃ msg, midiToNote (128 : Int) = .error msg) ∧
    (∃ msg, noteToMidi "C9" = .error msg) :=
  ⟨C9_note_roundtrip_and_range.1 60 (by decide),
   C9_note_roundtrip_and_range.2.2.1 128 (by decide),
   C9_note_roundtrip_and_range.2.2.2 "C9" "C" 9 (by decide) (by decide)⟩

/-- If the four bytes at the cursor do not spell `"MTrk"`, the track loop
stops right after reading that chunk type and its length, decoding no chunks
(whatever the declared track count). -/
theorem trackLoop_stops (n : Nat) (st : PST)
    (h0 h1 h2 h3 h4 h5 h6 h7 h8 h9 h10 h11 h12 h13 r0 r1 r2 r3 l0 l1 l2 l3 : Nat)
    (rest : List Nat)
    (hcur : st.cur = ⟨h0 :: h1 :: h2 :: h3 :: h4 :: h5 :: h6 :: h7 :: h8 :: h9 :: h10 ::
      h11 :: h12 :: h13 :: r0 :: r1 :: r2 :: r3 :: l0 :: l1 :: l2 :: l3 :: rest, 14⟩)
    (hch : st.chunks = [])
    (htype : String.mk [Char.ofNat (r0 % 256), Char.ofNat (r1 % 256),
      Char.ofNat (r2 % 256), Char.ofNat (r3 % 256)] ≠ "MTrk") :
    ∃ r : PST, trackLoop n st = some r ∧ r.chunks = [] := by
  cases n with
  | zero => exact ⟨st, rfl, hch⟩
  | succ n =>
    unfold trackLoop
    rw [hcur]
    have hrem : ¬Cursor.remainingBytes ⟨h0 :: h1 :: h2 :: h3 :: h4 :: h5 :: h6 :: h7 ::
        h8 :: h9 :: h10 :: h11 :: h12 :: h13 :: r0 :: r1 :: r2 :: r3 :: l0 :: l1 :: l2 ::
        l3 :: rest, 14⟩ = 0 := by
      simp only [Cursor.remainingBytes, List.length_cons]
      omega
    rw [if_neg hrem]
    have hRS : Cursor.readString ⟨h0 :: h1 :: h2 :: h3 :: h4 :: h5 :: h6 :: h7 :: h8 ::
        h9 :: h10 :: h11 :: h12 :: h13 :: r0 :: r1 :: r2 :: r3 :: l0 :: l1 :: l2 :: l3 ::
        rest, 14⟩ 4 =
        some (String.mk [Char.ofNat (r0 % 256), Char.ofNat (r1 % 256),
          Char.ofNat (r2 % 256), Char.ofNat (r3 % 256)],
          ⟨h0 :: h1 :: h2 :: h3 :: h4 :: h5 :: h6 :: h7 :: h8 :: h9 :: h10 :: h11 ::
            h12 :: h13 :: r0 :: r1 :: r2 :: r3 :: l0 :: l1 :: l2 :: l3 :: rest, 18⟩) := by
      unfold Cursor.readString
      rw [if_pos (by simp only [List.length_cons]; omega)]
      rfl
    rw [hRS]
    simp only []
    have hU32 : Cursor.readUInt32 ⟨h0 :: h1 :: h2 :: h3 :: h4 :: h5 :: h6 :: h7 :: h8 ::
        h9 :: h10 :: h11 :: h12 :: h13 :: r0 :: r1 :: r2 :: r3 :: l0 :: l1 :: l2 :: l3 ::
        rest, 18⟩ =
        some ((l0 % 256 * 256 + l1 % 256) * 65536 + (l2 % 256 * 256 + l3 % 256),
          ⟨h0 :: h1 :: h2 :: h3 :: h4 :: h5 :: h6 :: h7 :: h8 :: h9 :: h10 :: h11 ::
            h12 :: h13 :: r0 :: r1 :: r2 :: r3 :: l0 :: l1 :: l2 :: l3 :: rest, 22⟩) := by
      unfold Cursor.readUInt32 Cursor.readUInt16 Cursor.readUInt8
      simp
    rw [hU32]
    simp only []
    rw [if_pos htype]
    exact ⟨_, rfl, hch⟩

/-- C7 (amended): `parse` reads a fixed 14-byte header — the declared header
chunk length (bytes 4–7, here arbitrary) is never used to skip excess header
bytes — and then reads the first chunk type at byte offset 14; when those four
bytes do not spell `"MTrk"`, parsing stops with no decoded chunks. -/
theorem C7_fixed_header_no_skip
    (h0 h1 h2 h3 h4 h5 h6 h7 h8 h9 h10 h11 h12 h13 r0 r1 r2 r3 l0 l1 l2 l3 : Nat)
    (rest : List Nat)
    (htype : String.mk [Char.ofNat (r0 % 256), Char.ofNat (r1 % 256),
      Char.ofNat (r2 % 256), Char.ofNat (r3 % 256)] ≠ "MTrk") :
    ∃ r : PST,
      parse (h0 :: h1 :: h2 :: h3 :: h4 :: h5 :: h6 :: h7 :: h8 :: h9 :: h10 :: h11 ::
        h12 :: h13 :: r0 :: r1 :: r2 :: r3 :: l0 :: l1 :: l2 :: l3 :: rest) = some r ∧
      r.chunks = [] := by
  have hread : Cursor.read ⟨h0 :: h1 :: h2 :: h3 :: h4 :: h5 :: h6 :: h7 :: h8 :: h9 ::
      h10 :: h11 :: h12 :: h13 :: r0 :: r1 :: r2 :: r3 :: l0 :: l1 :: l2 :: l3 ::
      rest, 0⟩ (14 : Int) =
      some ([h0, h1, h2, h3, h4, h5, h6, h7, h8, h9, h10, h11, h12, h13],
        ⟨h0 :: h1 :: h2 :: h3 :: h4 :: h5 :: h6 :: h7 :: h8 :: h9 :: h10 :: h11 ::
          h12 :: h13 :: r0 :: r1 :: r2 :: r3 :: l0 :: l1 :: l2 :: l3 :: rest, 14⟩) := by
    unfold Cursor.read
    rw [if_pos (by refine ⟨by decide, ?_⟩; simp only [List.length_cons]; omega)]
    rfl
  simp only [parse]
  rw [hread]
  simp only [Option.bind_eq_bind, Option.some_bind]
  by_cases hdiv : 128 ≤ h12 % 256
  · have hdec : decodeHeader [h0, h1, h2, h3, h4, h5, h6, h7, h8, h9, h10, h11,
        h12, h13] =
        some ⟨String.mk [Char.ofNat (h0 % 256), Char.ofNat (h1 % 256),
            Char.ofNat (h2 % 256), Char.ofNat (h3 % 256)],
          (h4 % 256 * 256 + h5 % 256) * 65536 + (h6 % 256 * 256 + h7 % 256),
          h8 % 256 * 256 + h9 % 256, h10 % 256 * 256 + h11 % 256,
          some (h12 % 256 - 128), some (h13 % 256), none⟩ := by
      unfold decodeHeader
      simp only [Cursor.readString, Cursor.readUInt32, Cursor.readUInt16,
        Cursor.readUInt8]
      rw [if_pos (by simp)]
      simp only [List.getElem?_cons_zero, List.getElem?_cons_succ,
        Option.bind_eq_bind, Option.some_bind]
      rw [if_pos hdiv]
      rfl
    rw [hdec]
    simp only [Option.some_bind]
    exact trackLoop_stops _ _ h0 h1 h2 h3 h4 h5 h6 h7 h8 h9 h10 h11 h12 h13
      r0 r1 r2 r3 l0 l1 l2 l3 rest rfl rfl htype
  · have hdec : decodeHeader [h0, h1, h2, h3, h4, h5, h6, h7, h8, h9, h10, h11,
        h12, h13] =
        some ⟨String.mk [Char.ofNat (h0 % 256), Char.ofNat (h1 % 256),
            Char.ofNat (h2 % 256), Char.ofNat (h3 % 256)],
          (h4 % 256 * 256 + h5 % 256) * 65536 + (h6 % 256 * 256 + h7 % 256),
          h8 % 256 * 256 + h9 % 256, h10 % 256 * 256 + h11 % 256,
          none, none, some (h12 % 256 * 256 + h13 % 256)⟩ := by
      unfold decodeHeader
      simp only [Cursor.readString, Cursor.readUInt32, Cursor.readUInt16,
        Cursor.readUInt8]
      rw [if_pos (by simp)]
      simp only [List.getElem?_cons_zero, List.getElem?_cons_succ,
        Option.bind_eq_bind, Option.some_bind]
      rw [if_neg hdiv]
      rfl
    rw [hdec]
    simp only [Option.some_bind]
    exact trackLoop_stops _ _ h0 h1 h2 h3 h4 h5 h6 h7 h8 h9 h10 h11 h12 h13
      r0 r1 r2 r3 l0 l1 l2 l3 rest rfl rfl htype

/-- Witness for C7 (amended) at the oversized-header file: the header declares
length 7, so the excess byte `0x00` shifts the real `MTrk` header; the four
bytes at offset 14 are `00 4D 54 72`, not `"MTrk"`, and no chunks decode. -/
theorem C7_amended_witness :
    ∃ r : PST,
      parse (0x4D :: 0x54 :: 0x68 :: 0x64 :: 0 :: 0 :: 0 :: 7 :: 0 :: 0 :: 0 :: 1 ::
        0x01 :: 0xE0 :: 0x00 :: 0x4D :: 0x54 :: 0x72 :: 0x6B :: 0 :: 0 :: 0 ::
        [4, 0x00, 0xFF, 0x2F, 0x00]) = some r ∧ r.chunks = [] :=
  C7_fixed_header_no_skip 0x4D 0x54 0x68 0x64 0 0 0 7 0 0 0 1 0x01 0xE0
    0x00 0x4D 0x54 0x72 0x6B 0 0 0 [4, 0x00, 0xFF, 0x2F, 0x00] (by decide)

/-- Replacing the first entry for a key changes the counter sum by the new
value minus the first entry's old value — duplicates beyond the first are
untouched, so no key-uniqueness is needed. -/
theorem sumValues_mapSet (m : List (Option Int × Nat)) (k : Option Int) (v : Nat) :
    sumValues (mapSet m k v) + (mapGet m k).getD 0 = sumValues m + v := by
  induction m with
  | nil => simp [sumValues, mapSet, mapGet]
  | cons p rest ih =>
    by_cases h : p.1 = k
    · simp only [sumValues, mapSet, mapGet, if_pos h, List.map_cons, List.sum_cons,
        Option.getD_some]
      omega
    · simp only [sumValues, mapSet, mapGet, if_neg h, List.map_cons, List.sum_cons] at ih ⊢
      omega

/-- Pushing an issue does not touch the active-note map. -/
theorem push_activeNotes (s : VState) (msg : String) :
    (s.push msg).activeNotes = s.activeNotes := rfl

/-- One `validateEvent` step moves `activeNotes` exactly as `vActiveStep`. -/
theorem validateEvent_activeNotes (ti ei : Nat) (s : VState) (e : MEvent) :
    (validateEvent ti ei s e).activeNotes = vActiveStep s.activeNotes e := by
  simp only [validateEvent, vActiveStep, VState.push, apply_ite VState.activeNotes, ite_self]

/-- Over any event list and any starting state, the validator's active-note
counter total plus the Note-Off attempts equals the starting total plus the
counted Note-Ons plus the failed decrements. -/
theorem validate_note_balance_aux (events : List MEvent) :
    ∀ (ei ti : Nat) (s : VState),
      sumValues (validateEventsAux ti ei s events).activeNotes
          + events.countP isOffAttempt + events.countP isZeroOnAttempt
        = sumValues s.activeNotes + events.countP isOnInc
          + decFailCount s.activeNotes events := by
  induction events with
  | nil => intro ei ti s; simp [validateEventsAux, decFailCount]
  | cons e rest ih =>
    intro ei ti s
    have H := ih (ei + 1) ti (validateEvent ti ei s e)
    rw [validateEvent_activeNotes] at H
    simp only [validateEventsAux, List.countP_cons]
    by_cases h90 : e.type = some 0x90
    · by_cases hmiss : e.data.falsy = true ∨ e.data.noteProp = none ∨
          e.data.velocityProp = none
      · have hstep : vActiveStep s.activeNotes e = s.activeNotes := by
          simp [vActiveStep, h90, hmiss]
        have hdf : decFailCount s.activeNotes (e :: rest) =
            decFailCount s.activeNotes rest := by
          simp [decFailCount, h90, hmiss]
        have hOn : isOnInc e = false := by
          simp only [isOnInc, decide_eq_false_iff_not]
          rintro ⟨-, hm, -⟩; exact hm hmiss
        have hOff : isOffAttempt e = false := by
          simp only [isOffAttempt, decide_eq_false_iff_not]
          rintro ⟨h, -⟩; rw [h90] at h; exact absurd h (by decide)
        have hZero : isZeroOnAttempt e = false := by
          simp only [isZeroOnAttempt, decide_eq_false_iff_not]
          rintro ⟨-, hm, -⟩; exact hm hmiss
        rw [hstep] at H
        rw [hdf, hOn, hOff, hZero]
        simp only [Bool.false_eq_true, if_false]
        omega
      · by_cases hvel : 0 < e.data.velocityProp.getD 0
        · have hstep : vActiveStep s.activeNotes e =
              mapSet s.activeNotes (e.data.noteProp.bind noteNumberOf)
                ((mapGet s.activeNotes (e.data.noteProp.bind noteNumberOf)).getD 0 + 1) := by
            simp [vActiveStep, h90, hmiss, hvel]
          have hdf : decFailCount s.activeNotes (e :: rest) =
              decFailCount (mapSet s.activeNotes (e.data.noteProp.bind noteNumberOf)
                ((mapGet s.activeNotes (e.data.noteProp.bind noteNumberOf)).getD 0 + 1))
                rest := by
            simp [decFailCount, h90, hmiss, hvel]
          have hms := sumValues_mapSet s.activeNotes (e.data.noteProp.bind noteNumberOf)
            ((mapGet s.activeNotes (e.data.noteProp.bind noteNumberOf)).getD 0 + 1)
          have hOn : isOnInc e = true := by
            simp only [isOnInc, decide_eq_true_eq]
            exact ⟨h90, hmiss, hvel⟩
          have hOff : isOffAttempt e = false := by
            simp only [isOffAttempt, decide_eq_false_iff_not]
            rintro ⟨h, -⟩; rw [h90] at h; exact absurd h (by decide)
          have hZero : isZeroOnAttempt e = false := by
            simp only [isZeroOnAttempt, decide_eq_false_iff_not]
            rintro ⟨-, -, hv⟩; exact hv hvel
          rw [hstep] at H
          rw [hdf, hOn, hOff, hZero]
          simp only [Bool.false_eq_true, if_false, eq_self_iff_true, if_true]
          omega
        · by_cases hz : (mapGet s.activeNotes
              (e.data.noteProp.bind noteNumberOf)).getD 0 ≤ 0
          · have hstep : vActiveStep s.activeNotes e = s.activeNotes := by
              simp [vActiveStep, h90, hmiss, hvel, hz]
            have hdf : decFailCount s.activeNotes (e :: rest) =
                1 + decFailCount s.activeNotes rest := by
              simp [decFailCount, h90, hmiss, hvel, hz]
            have hOn : isOnInc e = false := by
              simp only [isOnInc, decide_eq_false_iff_not]
              rintro ⟨-, -, hv⟩; exact hvel hv
            have hOff : isOffAttempt e = false := by
              simp only [isOffAttempt, decide_eq_false_iff_not]
              rintro ⟨h, -⟩; rw [h90] at h; exact absurd h (by decide)
            have hZero : isZeroOnAttempt e = true := by
              simp only [isZeroOnAttempt, decide_eq_true_eq]
              exact ⟨h90, hmiss, hvel⟩
            rw [hstep] at H
            rw [hdf, hOn, hOff, hZero]
            simp only [Bool.false_eq_true, if_false, eq_self_iff_true, if_true]
            omega
          · have hstep : vActiveStep s.activeNotes e =
                mapSet s.activeNotes (e.data.noteProp.bind noteNumberOf)
                  ((mapGet s.activeNotes (e.data.noteProp.bind noteNumberOf)).getD 0 - 1) := by
              simp [vActiveStep, h90, hmiss, hvel, hz]
            have hdf : decFailCount s.activeNotes (e :: rest) =
                decFailCount (mapSet s.activeNotes (e.data.noteProp.bind noteNumberOf)
                  ((mapGet s.activeNotes (e.data.noteProp.bind noteNumberOf)).getD 0 - 1))
                  rest := by
              simp [decFailCount, h90, hmiss, hvel, hz]
            have hms := sumValues_mapSet s.activeNotes (e.data.noteProp.bind noteNumberOf)
              ((mapGet s.activeNotes (e.data.noteProp.bind noteNumberOf)).getD 0 - 1)
            have hOn : isOnInc e = false := by
              simp only [isOnInc, decide_eq_false_iff_not]
              rintro ⟨-, -, hv⟩; exact hvel hv
            have hOff : isOffAttempt e = false := by
              simp only [isOffAttempt, decide_eq_false_iff_not]
              rintro ⟨h, -⟩; rw [h90] at h; exact absurd h (by decide)
            have hZero : isZeroOnAttempt e = true := by
              simp only [isZeroOnAttempt, decide_eq_true_eq]
              exact ⟨h90, hmiss, hvel⟩
            rw [hstep] at H
            rw [hdf, hOn, hOff, hZero]
            simp only [Bool.false_eq_true, if_false, eq_self_iff_true, if_true]
            omega
    · by_cases h80 : e.type = some 0x80
      · by_cases hmiss : e.data.falsy = true ∨ e.data.noteProp = none
        · have hstep : vActiveStep s.activeNotes e = s.activeNotes := by
            simp [vActiveStep, h90, h80, hmiss]
          have hdf : decFailCount s.activeNotes (e :: rest) =
              decFailCount s.activeNotes rest := by
            simp [decFailCount, h90, h80, hmiss]
          have hOn : isOnInc e = false := by
            simp only [isOnInc, decide_eq_false_iff_not]
            rintro ⟨h, -⟩; exact h90 h
          have hOff : isOffAttempt e = false := by
            simp only [isOffAttempt, decide_eq_false_iff_not]
            rintro ⟨-, hm⟩; exact hm hmiss
          have hZero : isZeroOnAttempt e = false := by
            simp only [isZeroOnAttempt, decide_eq_false_iff_not]
            rintro ⟨h, -⟩; exact h90 h
          rw [hstep] at H
          rw [hdf, hOn, hOff, hZero]
          simp only [Bool.false_eq_true, if_false]
          omega
        · by_cases hz : (mapGet s.activeNotes
              (e.data.noteProp.bind noteNumberOf)).getD 0 ≤ 0
          · have hstep : vActiveStep s.activeNotes e = s.activeNotes := by
              simp [vActiveStep, h90, h80, hmiss, hz]
            have hdf : decFailCount s.activeNotes (e :: rest) =
                1 + decFailCount s.activeNotes rest := by
              simp [decFailCount, h90, h80, hmiss, hz]
            have hOn : isOnInc e = false := by
              simp only [isOnInc, decide_eq_false_iff_not]
              rintro ⟨h, -⟩; exact h90 h
            have hOff : isOffAttempt e = true := by
              simp only [isOffAttempt, decide_eq_true_eq]
              exact ⟨h80, hmiss⟩
            have hZero : isZeroOnAttempt e = false := by
              simp only [isZeroOnAttempt, decide_eq_false_iff_not]
              rintro ⟨h, -⟩; exact h90 h
            rw [hstep] at H
            rw [hdf, hOn, hOff, hZero]
            simp only [Bool.false_eq_true, if_false, eq_self_iff_true, if_true]
            omega
          · have hstep : vActiveStep s.activeNotes e =
                mapSet s.activeNotes (e.data.noteProp.bind noteNumberOf)
                  ((mapGet s.activeNotes (e.data.noteProp.bind noteNumberOf)).getD 0 - 1) := by
              simp [vActiveStep, h90, h80, hmiss, hz]
            have hdf : decFailCount s.activeNotes (e :: rest) =
                decFailCount (mapSet s.activeNotes (e.data.noteProp.bind noteNumberOf)
                  ((mapGet s.activeNotes (e.data.noteProp.bind noteNumberOf)).getD 0 - 1))
                  rest := by
              simp [decFailCount, h90, h80, hmiss, hz]
            have hms := sumValues_mapSet s.activeNotes (e.data.noteProp.bind noteNumberOf)
              ((mapGet s.activeNotes (e.data.noteProp.bind noteNumberOf)).getD 0 - 1)
            have hOn : isOnInc e = false := by
              simp only [isOnInc, decide_eq_false_iff_not]
              rintro ⟨h, -⟩; exact h90 h
            have hOff : isOffAttempt e = true := by
              simp only [isOffAttempt, decide_eq_true_eq]
              exact ⟨h80, hmiss⟩
            have hZero : isZeroOnAttempt e = false := by
              simp only [isZeroOnAttempt, decide_eq_false_iff_not]
              rintro ⟨h, -⟩; exact h90 h
            rw [hstep] at H
            rw [hdf, hOn, hOff, hZero]
            simp only [Bool.false_eq_true, if_false, eq_self_iff_true, if_true]
            omega
      · have hstep : vActiveStep s.activeNotes e = s.activeNotes := by
          simp [vActiveStep, h90, h80]
        have hdf : decFailCount s.activeNotes (e :: rest) =
            decFailCount s.activeNotes rest := by
          simp [decFailCount, h90, h80]
        have hOn : isOnInc e = false := by
          simp only [isOnInc, decide_eq_false_iff_not]
          rintro ⟨h, -⟩; exact h90 h
        have hOff : isOffAttempt e = false := by
          simp only [isOffAttempt, decide_eq_false_iff_not]
          rintro ⟨h, -⟩; exact h80 h
        have hZero : isZeroOnAttempt e = false := by
          simp only [isZeroOnAttempt, decide_eq_false_iff_not]
          rintro ⟨h, -⟩; exact h90 h
        rw [hstep] at H
        rw [hdf, hOn, hOff, hZero]
        simp only [Bool.false_eq_true, if_false]
        omega

/-- Dropping the zero entries does not change the counter sum. -/
theorem sum_filter_pos (m : List (Option Int × Nat)) :
    (((m.filter (fun p => 0 < p.2)).map (fun p => p.2)).sum) = sumValues m := by
  induction m with
  | nil => simp [sumValues]
  | cons p rest ih =>
    by_cases h : 0 < p.2
    · simp [sumValues, List.filter_cons, h] at ih ⊢; omega
    · simp [sumValues, List.filter_cons, h] at ih ⊢; omega

/-- C8 (amended): for every event list, the number of counted Note-Ons
(status `0x90`, note and velocity present, velocity > 0) plus the number of
Note-Off attempts that fail because the note is not active equals the number
of `0x80` Note-Off attempts plus the number of zero-velocity `0x90` attempts
plus the validator's total unmatched-Note-On count. -/
theorem C8_validator_note_balance (events : List MEvent) :
    events.countP isOnInc + decFailCount [] events
      = events.countP isOffAttempt + events.countP isZeroOnAttempt
        + unmatchedNoteOnTotal events := by
  have H := validate_note_balance_aux events 0 0 ⟨[], [], false⟩
  have hfil := sum_filter_pos (validatorFold events).activeNotes
  have hAN : (VState.mk [] [] false).activeNotes = [] := rfl
  have h00 : sumValues ([] : List (Option Int × Nat)) = 0 := rfl
  rw [hAN, h00] at H
  unfold unmatchedNoteOnTotal
  rw [hfil]
  unfold validatorFold
  omega

/-!
### Buffer-extension lemmas for the encoder (claim C10)
-/

theorem bufExtends_refl (db : DataBuf) (h : db.offset = db.data.length) :
    BufExtends db db :=
  ⟨h, le_refl _, List.take_length db.data⟩

theorem bufExtends_trans {a b c : DataBuf}
    (h1 : BufExtends a b) (h2 : BufExtends b c) : BufExtends a c := by
  obtain ⟨hb1, hb2, hb3⟩ := h1
  obtain ⟨hc1, hc2, hc3⟩ := h2
  refine ⟨hc1, le_trans hb2 hc2, ?_⟩
  have h : c.data.take a.data.length = (c.data.take b.data.length).take a.data.length := by
    rw [List.take_take, min_eq_left hb2]
  rw [h, hc3, hb3]

/-- At the end of the buffer, `writeUInt8` appends. -/
theorem writeUInt8_app (db : DataBuf) (v : Nat) (h : db.offset = db.data.length) :
    db.writeUInt8 v = ⟨db.data ++ [v % 256], db.data.length + 1⟩ := by
  unfold DataBuf.writeUInt8
  rw [h, if_neg (lt_irrefl _)]

theorem writeUInt8_extends (db : DataBuf) (v : Nat) (h : db.offset = db.data.length) :
    BufExtends db (db.writeUInt8 v) := by
  rw [writeUInt8_app db v h]
  refine ⟨by simp, by simp, ?_⟩
  simp only []
  rw [List.take_left]

theorem writeUInt8_app_length (db : DataBuf) (v : Nat) (h : db.offset = db.data.length) :
    (db.writeUInt8 v).data.length = db.data.length + 1 := by
  rw [writeUInt8_app db v h]
  simp

theorem writeBytes_extends (bs : List Nat) : ∀ (db : DataBuf),
    db.offset = db.data.length → BufExtends db (db.writeBytes bs) := by
  induction bs with
  | nil => intro db h; exact bufExtends_refl db h
  | cons b bs ih =>
    intro db h
    have h1 := writeUInt8_extends db b h
    have h2 := ih (db.writeUInt8 b) h1.1
    simp only [DataBuf.writeBytes, List.foldl_cons] at h2 ⊢
    exact bufExtends_trans h1 h2

theorem writeBytes_wf_length (bs : List Nat) : ∀ (db : DataBuf),
    db.offset = db.data.length →
    (db.writeBytes bs).data.length = db.data.length + bs.length := by
  induction bs with
  | nil => intro db h; simp [DataBuf.writeBytes]
  | cons b bs ih =>
    intro db h
    have h1 := writeUInt8_extends db b h
    have h2 := ih (db.writeUInt8 b) h1.1
    simp only [DataBuf.writeBytes, List.foldl_cons] at h2 ⊢
    rw [h2, writeUInt8_app_length db b h]
    simp only [List.length_cons]
    omega

theorem writeUInt16_extends (db : DataBuf) (v : Nat) (h : db.offset = db.data.length) :
    BufExtends db (db.writeUInt16 v) := by
  have h1 := writeUInt8_extends db (v >>> 8) h
  exact bufExtends_trans h1 (writeUInt8_extends _ v h1.1)

theorem writeUInt32_extends (db : DataBuf) (v : Nat) (h : db.offset = db.data.length) :
    BufExtends db (db.writeUInt32 v) := by
  have h1 := writeUInt8_extends db (v >>> 24) h
  have h2 := bufExtends_trans h1 (writeUInt8_extends _ (v >>> 16) h1.1)
  have h3 := bufExtends_trans h2 (writeUInt8_extends _ (v >>> 8) h2.1)
  exact bufExtends_trans h3 (writeUInt8_extends _ v h3.1)

theorem writeString_extends (db : DataBuf) (s : String) (h : db.offset = db.data.length) :
    BufExtends db (db.writeString s) :=
  writeBytes_extends _ db h

theorem except_bind_ok {α β : Type} (x : Except String α) (f : α → Except String β)
    (b : β) (h : (x >>= f) = .ok b) : ∃ a, x = .ok a ∧ f a = .ok b := by
  cases x with
  | error msg => exact absurd h (by simp [Bind.bind, Except.bind])
  | ok a => exact ⟨a, rfl, by simpa [Bind.bind, Except.bind] using h⟩

theorem writeEventData_extends (db : DataBuf) (p : WPayload) (db' : DataBuf)
    (h : db.offset = db.data.length) (hw : writeEventData db p = .ok db') :
    BufExtends db db' := by
  cases p with
  | uint8array bs =>
    simp only [writeEventData, Except.ok.injEq] at hw
    subst hw
    exact writeBytes_extends bs db h
  | arr elems =>
    simp only [writeEventData] at hw
    split at hw
    · exact absurd hw (by simp)
    · simp only [Except.ok.injEq] at hw
      subst hw
      have hfold : elems.foldl (fun db e => db.writeUInt8 ((e.getD (JsVal.num 0)).toByte)) db
          = db.writeBytes (elems.map (fun e => (e.getD (JsVal.num 0)).toByte)) := by
        rw [DataBuf.writeBytes, List.foldl_map]
      rw [hfold]
      exact writeBytes_extends _ db h
  | strPayload s =>
    simp only [writeEventData, Except.ok.injEq] at hw
    subst hw
    exact writeBytes_extends _ db h
  | other => exact absurd hw (by simp [writeEventData])

set_option maxHeartbeats 1000000

theorem writeMetaEvent_extends (db : DataBuf) (e : MEvent) (db' : DataBuf)
    (h : db.offset = db.data.length) (hw : writeMetaEvent db e = .ok db') :
    BufExtends db db' := by
  unfold writeMetaEvent at hw
  repeat' (split at hw)
  all_goals
    first
      | exact Except.noConfusion hw
      | (injection hw with hw
         subst hw
         first
           | exact bufExtends_refl db h
           | exact writeUInt8_extends _ _ h)
      | exact writeEventData_extends _ _ _ h hw

theorem writeEventDispatch_extends (db : DataBuf) (e : MEvent) (db' : DataBuf)
    (h : db.offset = db.data.length) (hw : writeEventDispatch db e = .ok db') :
    BufExtends db db' := by
  unfold writeEventDispatch at hw
  repeat' (split at hw)
  all_goals
    first
      | exact Except.noConfusion hw
      | (injection hw with hw
         subst hw
         exact bufExtends_refl db h)
      | exact writeEventData_extends _ _ _ h hw
      | (have h1 := writeUInt8_extends db (e.metaType.getD 0) h
         have h2 := bufExtends_trans h1
           (writeBytes_extends (writeVariableLengthValue (e.metaEventLength.getD 0)) _ h1.1)
         exact bufExtends_trans h2 (writeMetaEvent_extends _ _ _ h2.1 hw))
      | (obtain ⟨dbM, hWED, hf⟩ := except_bind_ok _ _ _ hw
         simp only [pure, Except.pure, Except.ok.injEq] at hf
         subst hf
         have hS := writeUInt8_extends db (e.data.manufacturerIdProp.getD 0) h
         have hM := writeEventData_extends _ _ _ hS.1 hWED
         exact bufExtends_trans (bufExtends_trans hS hM)
           (writeUInt8_extends _ _ (bufExtends_trans hS hM).1))

/-- Every successful `writeEvent` only appends: the old bytes stay a prefix
and the cursor ends at the buffer end. -/
theorem writeEvent_extends (db : DataBuf) (e : MEvent) (db' : DataBuf)
    (h : db.offset = db.data.length) (hw : writeEvent db e = .ok db') :
    BufExtends db db' := by
  unfold writeEvent at hw
  split at hw
  · exact Except.noConfusion hw
  · have hV := writeBytes_extends (writeVariableLengthValue e.deltaTime) db h
    have hExt2 := bufExtends_trans hV
      (writeUInt8_extends _ ((statusByteOf e).getD 0) hV.1)
    exact bufExtends_trans hExt2 (writeEventDispatch_extends _ _ _ hExt2.1 hw)

theorem take_set_of_le {α : Type} (l : List α) (n k : Nat) (a : α) (h : k ≤ n) :
    (l.set n a).take k = l.take k := by
  induction l generalizing n k with
  | nil => simp
  | cons x xs ih =>
    cases n with
    | zero =>
      have hk : k = 0 := Nat.le_zero.mp h
      subst hk; simp
    | succ n =>
      cases k with
      | zero => simp
      | succ k =>
        simp only [List.set_cons_succ, List.take_succ_cons]
        rw [ih n k (Nat.succ_le_succ_iff.mp h)]

/-- Inside the buffer, `writeUInt8` overwrites in place. -/
theorem writeUInt8_set (db : DataBuf) (v : Nat) (h : db.offset < db.data.length) :
    db.writeUInt8 v = ⟨db.data.set db.offset (v % 256), db.offset + 1⟩ := by
  unfold DataBuf.writeUInt8
  rw [if_pos h]

theorem writeUInt32_wf_length (db : DataBuf) (v : Nat) (h : db.offset = db.data.length) :
    (db.writeUInt32 v).data.length = db.data.length + 4 := by
  have h1 := writeUInt8_extends db (v >>> 24) h
  have h2 := writeUInt8_extends _ (v >>> 16) h1.1
  have h3 := writeUInt8_extends _ (v >>> 8) h2.1
  unfold DataBuf.writeUInt32
  rw [writeUInt8_app_length _ _ h3.1, writeUInt8_app_length _ _ h2.1,
    writeUInt8_app_length _ _ h1.1, writeUInt8_app_length _ _ h]

/-- The chunk-length back-patch: seeking to `p` and writing a 32-bit value
inside the buffer keeps the length and every prefix up to `p`. -/
theorem writeUInt32_backpatch (db : DataBuf) (v p : Nat) (hp : p + 4 ≤ db.data.length) :
    ∃ d' : List Nat, (db.seek p).writeUInt32 v = ⟨d', p + 4⟩ ∧
      d'.length = db.data.length ∧ ∀ k ≤ p, d'.take k = db.data.take k := by
  have e1 : (db.seek p).writeUInt8 (v >>> 24) =
      ⟨db.data.set p ((v >>> 24) % 256), p + 1⟩ :=
    writeUInt8_set (db.seek p) _ (by simpa [DataBuf.seek] using (by omega : p < db.data.length))
  have e2 : (⟨db.data.set p ((v >>> 24) % 256), p + 1⟩ : DataBuf).writeUInt8 (v >>> 16) =
      ⟨(db.data.set p ((v >>> 24) % 256)).set (p + 1) ((v >>> 16) % 256), p + 2⟩ :=
    writeUInt8_set _ _ (by simp only [List.length_set]; omega)
  have e3 : (⟨(db.data.set p ((v >>> 24) % 256)).set (p + 1) ((v >>> 16) % 256),
        p + 2⟩ : DataBuf).writeUInt8 (v >>> 8) =
      ⟨((db.data.set p ((v >>> 24) % 256)).set (p + 1) ((v >>> 16) % 256)).set
        (p + 2) ((v >>> 8) % 256), p + 3⟩ :=
    writeUInt8_set _ _ (by simp only [List.length_set]; omega)
  have e4 : (⟨((db.data.set p ((v >>> 24) % 256)).set (p + 1) ((v >>> 16) % 256)).set
        (p + 2) ((v >>> 8) % 256), p + 3⟩ : DataBuf).writeUInt8 v =
      ⟨(((db.data.set p ((v >>> 24) % 256)).set (p + 1) ((v >>> 16) % 256)).set
        (p + 2) ((v >>> 8) % 256)).set (p + 3) (v % 256), p + 4⟩ :=
    writeUInt8_set _ _ (by simp only [List.length_set]; omega)
  refine ⟨(((db.data.set p ((v >>> 24) % 256)).set (p + 1) ((v >>> 16) % 256)).set
    (p + 2) ((v >>> 8) % 256)).set (p + 3) (v % 256), ?_, ?_, ?_⟩
  · unfold DataBuf.writeUInt32
    rw [e1, e2, e3, e4]
  · simp only [List.length_set]
  · intro k hk
    rw [take_set_of_le _ _ _ _ (by omega), take_set_of_le _ _ _ _ (by omega),
      take_set_of_le _ _ _ _ (by omega), take_set_of_le _ _ _ _ (by omega)]

theorem foldlM_writeEvent_extends (events : List MEvent) : ∀ (db db' : DataBuf),
    db.offset = db.data.length → events.foldlM writeEvent db = .ok db' →
    BufExtends db db' := by
  induction events with
  | nil =>
    intro db db' h hw
    simp only [List.foldlM_nil, pure, Except.pure, Except.ok.injEq] at hw
    subst hw
    exact bufExtends_refl db h
  | cons e rest ih =>
    intro db db' h hw
    rw [List.foldlM_cons] at hw
    obtain ⟨db1, h1, h2⟩ := except_bind_ok _ _ _ hw
    have hE := writeEvent_extends db e db1 h h1
    exact bufExtends_trans hE (ih db1 db' hE.1 h2)

/-- A successful `writeChunk` only appends to the buffer: the four
back-patched length bytes lie beyond the bytes present at entry. -/
theorem writeChunk_extends (db : DataBuf) (c : MTrack) (db' : DataBuf) (c' : MTrack)
    (h : db.offset = db.data.length) (hw : writeChunk db c = .ok (db', c')) :
    BufExtends db db' := by
  unfold writeChunk at hw
  split at hw
  · have hA := writeString_extends db "MTrk" h
    have hALen : (db.writeString "MTrk").data.length = db.data.length + 4 := by
      have h4 : (("MTrk".data).map Char.toNat).length = 4 := rfl
      unfold DataBuf.writeString
      rw [writeBytes_wf_length _ db h, h4]
    have hAOff : (db.writeString "MTrk").offset = db.data.length + 4 := by
      rw [hA.1, hALen]
    have hB := writeUInt32_extends (db.writeString "MTrk") 0 hA.1
    have hBLen : ((db.writeString "MTrk").writeUInt32 0).data.length =
        db.data.length + 8 := by
      rw [writeUInt32_wf_length _ _ hA.1, hALen]
    obtain ⟨db3, hF, hf⟩ := except_bind_ok _ _ _ hw
    have hC := foldlM_writeEvent_extends c.events _ _ hB.1 hF
    have hDB3 : BufExtends db db3 := bufExtends_trans (bufExtends_trans hA hB) hC
    simp only [pure, Except.pure, Except.ok.injEq, Prod.mk.injEq] at hf
    obtain ⟨hf1, -⟩ := hf
    rw [← hf1]
    rw [hAOff]
    have hp4 : db.data.length + 4 + 4 ≤ db3.data.length := by
      have := hC.2.1
      omega
    obtain ⟨d4, hEq, hLen4, hTake4⟩ :=
      writeUInt32_backpatch db3
        (db3.offset - ((db.writeString "MTrk").writeUInt32 0).offset)
        (db.data.length + 4) hp4
    rw [hEq]
    refine ⟨?_, ?_, ?_⟩
    · simp only [DataBuf.seek]
      rw [hLen4, hC.1]
    · simp only [DataBuf.seek]
      rw [hLen4]
      exact hDB3.2.1
    · simp only [DataBuf.seek]
      rw [hTake4 db.data.length (by omega)]
      exact hDB3.2.2
  · simp only [Except.ok.injEq, Prod.mk.injEq] at hw
    obtain ⟨h1, -⟩ := hw
    rw [← h1]
    exact bufExtends_refl db h

/-- The chunk fold of `saveToDataBuffer` only appends to the buffer. -/
theorem saveFold_extends (chunks : List MTrack) :
    ∀ (db : DataBuf) (acc : List MTrack) (db' : DataBuf) (cs : List MTrack),
      db.offset = db.data.length →
      (chunks.foldlM (fun (acc : DataBuf × List MTrack) (ch : MTrack) => do
          let (db1, ch1) ← writeChunk acc.1 ch
          pure (db1, acc.2 ++ [ch1])) (db, acc)) = .ok (db', cs) →
      BufExtends db db' := by
  induction chunks with
  | nil =>
    intro db acc db' cs h hw
    simp only [List.foldlM_nil, pure, Except.pure, Except.ok.injEq, Prod.mk.injEq] at hw
    obtain ⟨h1, -⟩ := hw
    rw [← h1]
    exact bufExtends_refl db h
  | cons c rest ih =>
    intro db acc db' cs h hw
    rw [List.foldlM_cons] at hw
    obtain ⟨p1, hstep, hrest⟩ := except_bind_ok _ _ _ hw
    obtain ⟨q, hwc, hpure⟩ := except_bind_ok _ _ _ hstep
    obtain ⟨db1, ch1⟩ := q
    simp only [pure, Except.pure, Except.ok.injEq] at hpure
    subst hpure
    have hE := writeChunk_extends db c db1 ch1 h hwc
    exact bufExtends_trans hE (ih db1 (acc ++ [ch1]) db' cs hE.1 hrest)

/-- The six header writes of `saveToDataBuffer` produce exactly `mthd14 m`. -/
theorem save_header_bytes (m : AMIDI) :
    ((((((⟨[], 0⟩ : DataBuf).writeString "MThd").writeUInt32 6).writeUInt16
      m.format).writeUInt16 m.trackCount).writeUInt16 (m.timeDivision.getD 0)) =
      ⟨mthd14 m, 14⟩ := rfl

/-- On success, the saved buffer starts with the verbatim 14-byte header. -/
theorem save_header (m : AMIDI) (db : DataBuf) (cs : List MTrack)
    (h : saveToDataBuffer m = .ok (db, cs)) :
    db.data.take 14 = mthd14 m ∧ 14 ≤ db.data.length := by
  simp only [saveToDataBuffer] at h
  rw [save_header_bytes m] at h
  have hlen14 : (mthd14 m).length = 14 := by simp [mthd14]
  have hE := saveFold_extends m.chunks ⟨mthd14 m, 14⟩ [] db cs (by simp [hlen14]) h
  constructor
  · have := hE.2.2
    simp only [hlen14] at this
    exact this
  · have := hE.2.1
    simp only [hlen14] at this
    exact this

/-- Chunks whose type is not `"MTrk"` contribute no bytes: the fold over the
raw chunk list and over the `"MTrk"`-filtered list produce the same buffer. -/
theorem saveFold_filter (chunks : List MTrack) :
    ∀ (db : DataBuf) (acc1 acc2 : List MTrack),
      (chunks.foldlM (fun (acc : DataBuf × List MTrack) (ch : MTrack) => do
          let (db1, ch1) ← writeChunk acc.1 ch
          pure (db1, acc.2 ++ [ch1])) (db, acc1)).map
        (fun (p : DataBuf × List MTrack) => p.1) =
      ((chunks.filter (fun (c : MTrack) => decide (c.type = "MTrk"))).foldlM
        (fun (acc : DataBuf × List MTrack) (ch : MTrack) => do
          let (db1, ch1) ← writeChunk acc.1 ch
          pure (db1, acc.2 ++ [ch1])) (db, acc2)).map
        (fun (p : DataBuf × List MTrack) => p.1) := by
  induction chunks with
  | nil => intro db acc1 acc2; rfl
  | cons c rest ih =>
    intro db acc1 acc2
    by_cases hc : c.type = "MTrk"
    · rw [List.filter_cons_of_pos (by simpa using hc)]
      rw [List.foldlM_cons, List.foldlM_cons]
      cases hwc : writeChunk db c with
      | error msg =>
        simp only [hwc]
        rfl
      | ok q =>
        obtain ⟨db1, ch1⟩ := q
        simp only [hwc]
        exact ih db1 (acc1 ++ [ch1]) (acc2 ++ [ch1])
    · rw [List.filter_cons_of_neg (by simpa using hc)]
      rw [List.foldlM_cons]
      have hid : writeChunk db c = .ok (db, c) := by
        unfold writeChunk
        rw [if_neg hc]
      simp only [hid]
      exact ih db (acc1 ++ [c]) acc2

/-- C5 (amended): how the decoder actually pairs notes, over any decoder
state.  (1) A Note-On (status nibble `0x9`, any velocity, including 0) is
emitted with its `length` absent — `undefined`, not 0 — and inserts/replaces
the active-note entry for its note with the current tick time, the velocity
and a reference to the new event; it never back-patches.  (2) A Note-Off
(status nibble `0x8`) whose note is active back-patches the referenced
Note-On's `length` to `currentTime - startTime` and deletes the entry.
(3) A Note-Off whose note is not active patches nothing and stores length 0
on itself.  (4) On the concrete Note-On/Note-Off pair file, the Note-On's
length becomes the 240-tick delta of its Note-Off. -/
theorem C5_note_pairing_amended :
    (∀ (st : PST) (t : Nat) (dt : Int) (note velocity : Nat) (c1 c2 : Cursor),
      (t >>> 4) &&& 0x0F = 0x9 →
      st.cur.readUInt8 = some (note, c1) → c1.readUInt8 = some (velocity, c2) →
      dispatchChannel st (some t) dt =
        some ({ deltaTime := dt, type := some t, channel := some (t &&& 0x0F),
                data := .noteOn note velocity none, label := some "Note On" },
          { st with
            cur := c2,
            activeNotes := mapSet st.activeNotes note
              ⟨st.currentTime, velocity, st.flatLen⟩ })) ∧
    (∀ (st : PST) (t : Nat) (dt : Int) (note velocity : Nat) (c1 c2 : Cursor)
        (a : ActiveNote),
      (t >>> 4) &&& 0x0F = 0x8 →
      st.cur.readUInt8 = some (note, c1) → c1.readUInt8 = some (velocity, c2) →
      mapGet st.activeNotes note = some a →
      dispatchChannel st (some t) dt =
        some ({ deltaTime := dt, type := some t, channel := some (t &&& 0x0F),
                data := .noteOff (toString note) velocity (st.currentTime - a.startTime),
                label := some "Note Off" },
          { patchRef { st with cur := c2 } a.ref (st.currentTime - a.startTime) with
            activeNotes := mapDelete
              (patchRef { st with cur := c2 } a.ref
                (st.currentTime - a.startTime)).activeNotes note })) ∧
    (∀ (st : PST) (t : Nat) (dt : Int) (note velocity : Nat) (c1 c2 : Cursor),
      (t >>> 4) &&& 0x0F = 0x8 →
      st.cur.readUInt8 = some (note, c1) → c1.readUInt8 = some (velocity, c2) →
      mapGet st.activeNotes note = none →
      dispatchChannel st (some t) dt =
        some ({ deltaTime := dt, type := some t, channel := some (t &&& 0x0F),
                data := .noteOff (toString note) velocity 0, label := some "Note Off" },
          { st with cur := c2 })) ∧
    ((parse notePairFile).map (fun r => r.chunks.map (fun tr =>
        tr.events.map (fun e => (e.deltaTime, e.data)))) =
      some [[((0 : Int), .noteOn 60 100 (some 240)),
             ((240 : Int), .noteOff "60" 0 240)]]) := by
  refine ⟨?_, ?_, ?_, ?_⟩
  · intro st t dt note velocity c1 c2 h9 hr1 hr2
    unfold dispatchChannel
    simp only []
    rw [h9]
    simp only [Option.bind_eq_bind, hr1, Option.some_bind, hr2]
    rfl
  · intro st t dt note velocity c1 c2 a h8 hr1 hr2 hget
    unfold dispatchChannel
    simp only []
    rw [h8]
    simp only [Option.bind_eq_bind, hr1, Option.some_bind, hr2, hget]
    rfl
  · intro st t dt note velocity c1 c2 h8 hr1 hr2 hget
    unfold dispatchChannel
    simp only []
    rw [h8]
    simp only [Option.bind_eq_bind, hr1, Option.some_bind, hr2, hget]
    rfl
  · decide

/-- Witness for C5 (amended) at concrete inputs: a Note-On dispatch on a
one-event state, and the matching/unmatched Note-Off dispatches. -/
theorem C5_amended_witness :
    dispatchChannel ⟨⟨[60, 100], 0⟩, 0, 1, some 480, [], [], [], 7, none⟩
        (some 0x90) 0 =
      some ({ deltaTime := 0, type := some 0x90, channel := some 0,
              data := .noteOn 60 100 none, label := some "Note On" },
        ⟨⟨[60, 100], 2⟩, 0, 1, some 480, [], [], [(60, ⟨7, 100, 0⟩)], 7, none⟩) ∧
    dispatchChannel ⟨⟨[60, 0], 0⟩, 0, 1, some 480, [],
        [{ deltaTime := 0, type := some 0x90, channel := some 0,
           data := .noteOn 60 100 none, label := some "Note On" }],
        [(60, ⟨7, 100, 0⟩)], 247, none⟩ (some 0x80) 240 =
      some ({ deltaTime := 240, type := some 0x80, channel := some 0,
              data := .noteOff "60" 0 240, label := some "Note Off" },
        ⟨⟨[60, 0], 2⟩, 0, 1, some 480, [],
          [{ deltaTime := 0, type := some 0x90, channel := some 0,
             data := .noteOn 60 100 (some 240), label := some "Note On" }],
          [], 247, none⟩) := by
  constructor
  · exact (C5_note_pairing_amended.1 ⟨⟨[60, 100], 0⟩, 0, 1, some 480, [], [], [], 7, none⟩
      0x90 0 60 100 ⟨[60, 100], 1⟩ ⟨[60, 100], 2⟩ (by decide) (by decide) (by decide)).trans
      (by decide)
  · exact (C5_note_pairing_amended.2.1 ⟨⟨[60, 0], 0⟩, 0, 1, some 480, [],
      [{ deltaTime := 0, type := some 0x90, channel := some 0,
         data := .noteOn 60 100 none, label := some "Note On" }],
      [(60, ⟨7, 100, 0⟩)], 247, none⟩ 0x80 240 60 0 ⟨[60, 0], 1⟩ ⟨[60, 0], 2⟩
      ⟨7, 100, 0⟩ (by decide) (by decide) (by decide) (by decide)).trans (by decide)

/-- C10: `saveToDataBuffer` emits one verbatim 14-byte `MThd` header from the
stored `format`, `trackCount` and `timeDivision`, and bytes only for `"MTrk"`
chunks: the output buffer equals that of the instance with non-`MTrk` chunks
dropped, and on success the first 14 bytes are exactly `mthd14`.  For the
instance parsed from the bad-track-header file, the emitted bytes are just the
header with trackCount byte 1 while zero `MTrk` chunks are present. -/
theorem C10_save_header_and_mtrk_only :
    (∀ m : AMIDI,
      (saveToDataBuffer m).map (fun (p : DataBuf × List MTrack) => p.1) =
        (saveToDataBuffer { m with
          chunks := m.chunks.filter (fun (c : MTrack) => decide (c.type = "MTrk")) }).map
          (fun (p : DataBuf × List MTrack) => p.1)) ∧
    (∀ (m : AMIDI) (db : DataBuf) (cs : List MTrack),
      saveToDataBuffer m = .ok (db, cs) →
      db.data.take 14 = mthd14 m ∧ 14 ≤ db.data.length) ∧
    ((parse badTrackHeaderFile).map (fun r =>
      ((saveToDataBuffer r.toInstance).map (fun (p : DataBuf × List MTrack) => p.1.data),
        r.trackCount,
        (r.chunks.filter (fun (c : MTrack) => decide (c.type = "MTrk"))).length)) =
      some (.ok [0x4D, 0x54, 0x68, 0x64, 0, 0, 0, 6, 0, 0, 0, 1, 0x01, 0xE0], 1, 0)) := by
  refine ⟨?_, ?_, ?_⟩
  · intro m
    unfold saveToDataBuffer
    exact saveFold_filter m.chunks _ [] []
  · exact save_header
  · decide

/-- Witness for C10 at a concrete instance (format 0, one declared track, time
division 480, no chunks): saving yields exactly the 14 header bytes, and the
header-prefix conjunct applies to that run. -/
theorem C10_witness :
    saveToDataBuffer ⟨0, 1, some 480, []⟩ =
      .ok (⟨[0x4D, 0x54, 0x68, 0x64, 0, 0, 0, 6, 0, 0, 0, 1, 0x01, 0xE0], 14⟩, []) ∧
    (⟨[0x4D, 0x54, 0x68, 0x64, 0, 0, 0, 6, 0, 0, 0, 1, 0x01, 0xE0], 14⟩ :
      DataBuf).data.take 14 = mthd14 ⟨0, 1, some 480, []⟩ :=
  ⟨by decide,
   (C10_save_header_and_mtrk_only.2.1 ⟨0, 1, some 480, []⟩
     ⟨[0x4D, 0x54, 0x68, 0x64, 0, 0, 0, 6, 0, 0, 0, 1, 0x01, 0xE0], 14⟩ []
     (by decide)).1⟩

set_option maxHeartbeats 200000

end AudioMIDI
